import Mathlib

/-!
Shallow embedding of `lsst.ip.isr.brighterFatterKernel.BrighterFatterKernel`
(file `src/python/lsst/ip/isr/brighterFatterKernel.py`).

Conventions of the embedding:
* Python floats are modelled by `Flt`: either the not-a-number sentinel or a
  rational value.  Value-for-value equality of persisted data is `Flt`
  equality (the sentinel equals itself, matching bit-identical persistence).
* Python dictionaries (insertion ordered, unique keys) are modelled by
  association lists `List (String × α)` together with `alookup` / `aset`.
* Raising an exception is modelled by `Except BFKError`; each distinct raise
  site in the source gets its own error constructor.
* Machine integers do not occur; all sizes are `Nat`.  The one arithmetic
  subtlety is `int((shape[0]-1)*(shape[1]-1)/4)`: for the natural-number
  shapes used here the Python truncation agrees with `Nat` division.
-/

set_option maxHeartbeats 1000000

namespace BFK

/-- A Python float value: the not-a-number sentinel or a finite (rational)
value.  Finite arithmetic in the claims stays inside `ℚ`. -/
inductive Flt
  | nan
  | val (q : ℚ)
deriving DecidableEq, Repr, Inhabited

/-- A Python scalar as stored in a `valid` entry of a persisted mapping or
table: either a genuine Python `bool` or an integer.  This distinction is
needed because `fromDict` tests `value is False` (identity with the boolean
`False` object) while coercions use `bool(value)` (truthiness). -/
inductive PyVal
  | pyBool (b : Bool)
  | pyInt (n : ℤ)
deriving DecidableEq, Repr

/-- Python `bool(value)` truthiness coercion. -/
def PyVal.toBool : PyVal → Bool
  | .pyBool b => b
  | .pyInt n => decide (n ≠ 0)

/-- Python `value is False`: identity with the boolean `False` object. -/
def PyVal.isFalseObj : PyVal → Bool
  | .pyBool b => !b
  | .pyInt _ => false

/-- Dictionary lookup on an association list (Python `d[k]`, as `Option`). -/
def alookup (k : String) : List (String × α) → Option α
  | [] => none
  | (a, v) :: rest => if a = k then some v else alookup k rest

/-- Dictionary assignment `d[k] = v`: replaces the value at an existing key
in place (keeping its position, as Python dictionaries do) or appends. -/
def aset (k : String) (v : α) : List (String × α) → List (String × α)
  | [] => [(k, v)]
  | (a, w) :: rest => if a = k then (k, v) :: rest else (a, w) :: aset k v rest

/-- Error taxonomy: one constructor per distinct raise site reachable in the
embedded code. -/
inductive BFKError
  /-- `fromDict`: persisted OBSTYPE does not match `_OBSTYPE = 'bfk'`. -/
  | obstypeMismatch (found : String)
  /-- `fromDict`/`fromTable`: schema version outside {1.0, 1.1}. -/
  | unknownVersion
  /-- `getLengths`: observation counts differ across amplifiers (or there
  are no amplifiers at all, so the set of counts is not a singleton). -/
  | inconsistentObservations
  /-- `toDict`/`toTable`: compacted correlation count matches neither the
  observation count nor the mask's true count. -/
  | badCorrelationShape
  /-- Python `KeyError` from a dictionary access. -/
  | keyError
  /-- `numpy.reshape` with an incompatible total size. -/
  | reshapeError
  /-- Python `IndexError` from sequence indexing. -/
  | indexError
deriving DecidableEq, Repr

/-- Lift a dictionary access to the error monad (a missing key raises). -/
def lookupE (m : List (String × α)) (k : String) : Except BFKError α :=
  match alookup k m with
  | some v => .ok v
  | none => .error .keyError

/-- Lift an `Option`-valued computation to the error monad. -/
def optE (o : Option α) (e : BFKError) : Except BFKError α :=
  match o with
  | some v => .ok v
  | none => .error e

/-- Error-monadic map over a list (a Python comprehension whose body may
raise), keeping the list order. -/
def exMap (f : α → Except BFKError β) : List α → Except BFKError (List β)
  | [] => .ok []
  | a :: rest => do
    let b ← f a
    let bs ← exMap f rest
    pure (b :: bs)

/-- A kernel-shaped or covariance-shaped 2-D array: a list of rows. -/
abbrev Mat := List (List Flt)

/-- `numpy.reshape` of a flat sequence to an `r × c` matrix; fails unless the
total size matches exactly. -/
def reshape2 : ℕ → ℕ → List Flt → Option Mat
  | 0, _, xs => if xs = [] then some [] else none
  | r + 1, c, xs =>
    if xs.length < c then none
    else (reshape2 r c (xs.drop c)).map (xs.take c :: ·)

/-- `numpy.reshape` of a flat sequence to an `n × r × c` stack of matrices;
fails unless the total size matches exactly. -/
def reshape3 : ℕ → ℕ → ℕ → List Flt → Option (List Mat)
  | 0, _, _, xs => if xs = [] then some [] else none
  | n + 1, r, c, xs => do
    let m ← reshape2 r c (xs.take (r * c))
    let rest ← reshape3 n r c (xs.drop (r * c))
    pure (m :: rest)

/-- `numpy.reshape(k)` of a 2-D array to a flat list: row-major flattening,
failing unless the total size is exactly `k`. -/
def ravelTo (k : ℕ) (m : Mat) : Option (List Flt) :=
  let f := m.flatten
  if f.length = k then some f else none

/-- `numpy.reshape(k)` of a stack of 2-D arrays to a flat list: row-major
flattening, failing unless the total size is exactly `k`. -/
def ravel3To (k : ℕ) (xs : List Mat) : Option (List Flt) :=
  let f := xs.flatten.flatten
  if f.length = k then some f else none

/-- The shape triple `numpy.array(xs).shape` of a rectangular stack of 2-D
arrays (the embedded callers only apply it to rectangular data, which is
what `numpy` requires for a 3-D array). -/
def shape3 (xs : List Mat) : ℕ × ℕ × ℕ :=
  (xs.length, (xs.headD []).length, ((xs.headD []).headD []).length)

/-- Calibration metadata, restricted to the keys the embedded methods read.
Modelled from the spec: the metadata store itself lives in the `IsrCalib`
base class (not under `src/`); per the spec it carries the `OBSTYPE`
identity tag, the schema version number, `LEVEL`, and the kernel shape. -/
structure Metadata where
  obstype : String
  bfkVersion : ℚ
  level : Option String
  kernelDx : Option ℕ
  kernelDy : Option ℕ
deriving DecidableEq, Repr

/-- The data model of `BrighterFatterKernel` (the attributes listed in
`requiredAttributes`, plus `shape`). -/
structure Calib where
  level : String
  shape : ℕ × ℕ
  expIdMask : List (String × List Bool)
  rawMeans : List (String × List Flt)
  rawVariances : List (String × List Flt)
  rawXcorrs : List (String × List Mat)
  badAmps : List String
  gain : List (String × Flt)
  noise : List (String × Flt)
  meanXcorrs : List (String × Mat)
  ampKernels : List (String × Mat)
  valid : List (String × Bool)
  detKernels : List (String × Mat)
deriving DecidableEq, Repr

/-- The nested persisted mapping form consumed by `fromDict` and produced by
`toDict`.  Version-dependent keys are `Option`-valued (absent key =
`none`); array-valued entries are in their flat persisted form. -/
structure BFKDict where
  metadata : Metadata
  expIdMask : Option (List (String × List Bool))
  rawMeans : Option (List (String × List Flt))
  rawVariances : Option (List (String × List Flt))
  means : Option (List (String × List Flt))
  variances : Option (List (String × List Flt))
  rawXcorrs : List (String × List Flt)
  badAmps : List String
  gain : List (String × Flt)
  noise : List (String × Flt)
  meanXcorrs : List (String × List Flt)
  ampKernels : List (String × List Flt)
  valid : List (String × PyVal)
  detKernels : List (String × List Flt)
deriving DecidableEq, Repr

/-- The `getLengths` computation, factored over the three attributes it
reads so that `fromDict` can invoke it on a partially-built calibration:
`kernelLength = shape[0]*shape[1]`,
`smallLength = int((shape[0]-1)*(shape[1]-1)/4)`, and `nObs` the unique
element of `{len(rawMeans[amp])}` at AMP level (0 otherwise). -/
def lengthsOf (level : String) (shape : ℕ × ℕ) (rawMeans : List (String × List Flt)) :
    Except BFKError (ℕ × ℕ × ℕ) :=
  let kernelLength := shape.1 * shape.2
  let smallLength := (shape.1 - 1) * (shape.2 - 1) / 4
  if level = "AMP" then
    match (rawMeans.map (fun p => p.2.length)).dedup with
    | [n] => .ok (kernelLength, smallLength, n)
    | _ => .error .inconsistentObservations
  else
    .ok (kernelLength, smallLength, 0)

/-- `BrighterFatterKernel.getLengths`. -/
def Calib.getLengths (c : Calib) : Except BFKError (ℕ × ℕ × ℕ) :=
  lengthsOf c.level c.shape c.rawMeans

/-- The cursor walk at the heart of `repackCorrelations`: one entry per mask
value, consuming the next compacted correlation on `True` and emitting the
placeholder on `False`.  Running out of compacted entries on a `True` is the
source's `IndexError`; trailing unconsumed entries are ignored, as in the
source. -/
def repackList (mask : List Bool) (xs : List Mat) (ph : Mat) : Option (List Mat) :=
  match mask, xs with
  | [], _ => some []
  | true :: _, [] => none
  | true :: ms, x :: rest => (repackList ms rest ph).map (x :: ·)
  | false :: ms, xs => (repackList ms xs ph).map (ph :: ·)

/-- `BrighterFatterKernel.repackCorrelations(amp, correlationShape)`: rebuild
`rawXcorrs[amp]` from `expIdMask[amp]`, filling masked-out slots with a
`(correlationShape[1], correlationShape[2])` array of the not-a-number
sentinel, and store the result back on the calibration. -/
def Calib.repackCorrelations (c : Calib) (amp : String) (correlationShape : ℕ × ℕ × ℕ) :
    Except BFKError Calib := do
  let mask ← lookupE c.expIdMask amp
  let xc ← lookupE c.rawXcorrs amp
  match repackList mask xc
      (List.replicate correlationShape.2.1 (List.replicate correlationShape.2.2 Flt.nan)) with
  | some repacked => .ok { c with rawXcorrs := aset amp repacked c.rawXcorrs }
  | none => .error .indexError

/-- The on-disk schema version written by export (`_VERSION = 1.1`).
Constructed in lowest terms so that kernel evaluation of version
comparisons reduces; `currentVersion_eq` below identifies it with the
literal `11/10`. -/
def currentVersion : ℚ := ⟨11, 10, by decide, by decide⟩

/-- The metadata written by `updateMetadata` and returned by `getMetadata`
during export.  Modelled from the spec: the base-class metadata machinery
is not under `src/`; per the spec the exported metadata carries the
identity tag, the current schema version, `LEVEL` and the kernel shape
(`updateMetadata` itself sets `LEVEL`, `KERNEL_DX`, `KERNEL_DY`). -/
def Calib.exportMetadata (c : Calib) : Metadata :=
  { obstype := "bfk", bfkVersion := currentVersion, level := some c.level,
    kernelDx := some c.shape.1, kernelDy := some c.shape.2 }

/-- `BrighterFatterKernel.fromDict`. -/
def fromDict (d : BFKDict) : Except BFKError Calib := do
  if d.metadata.obstype ≠ "bfk" then
    throw (.obstypeMismatch d.metadata.obstype)
  else do
    let level := d.metadata.level.getD "AMP"
    let shape := (d.metadata.kernelDx.getD 0, d.metadata.kernelDy.getD 0)
    let calibVersion := d.metadata.bfkVersion
    let vfields ←
      if calibVersion = 1 then do
        -- use 'means', because 'expIdMask' does not exist in version 1.0
        let ms ← optE d.means .keyError
        let vs ← optE d.variances .keyError
        pure (ms.map (fun p => (p.1, List.replicate p.2.length true)), ms, vs)
      else if calibVersion = currentVersion then do
        let mk ← optE d.expIdMask .keyError
        let ms ← optE d.rawMeans .keyError
        let vs ← optE d.rawVariances .keyError
        pure (mk, ms, vs)
      else throw .unknownVersion
    let mask := vfields.1
    let rmeans := vfields.2.1
    let rvars := vfields.2.2
    let lens ← lengthsOf level shape rmeans
    let smallLength := lens.2.1
    let nObs := lens.2.2
    let smallShapeSide := Nat.sqrt smallLength
    let rx ← exMap (fun p => do
        let m ← optE (reshape3 nObs smallShapeSide smallShapeSide p.2) .reshapeError
        pure (p.1, m)) d.rawXcorrs
    let mx ← exMap (fun p => do
        -- the source iterates dictionary['rawXcorrs'] here, not 'meanXcorrs'
        let flat ← lookupE d.meanXcorrs p.1
        let m ← optE (reshape2 shape.1 shape.2 flat) .reshapeError
        pure (p.1, m)) d.rawXcorrs
    let ak ← exMap (fun p => do
        let m ← optE (reshape2 shape.1 shape.2 p.2) .reshapeError
        pure (p.1, m)) d.ampKernels
    let validC := d.valid.map (fun p => (p.1, p.2.toBool))
    let bad := (d.valid.filter (fun p => p.2.isFalseObj)).map Prod.fst
    let dk ← exMap (fun p => do
        let m ← optE (reshape2 shape.1 shape.2 p.2) .reshapeError
        pure (p.1, m)) d.detKernels
    pure { level := level, shape := shape, expIdMask := mask, rawMeans := rmeans,
           rawVariances := rvars, rawXcorrs := rx, badAmps := bad,
           gain := d.gain, noise := d.noise, meanXcorrs := mx, ampKernels := ak,
           valid := validC, detKernels := dk }

/-- The per-amplifier shape check shared by `toDict` and `toTable`: if the
stored correlation count differs from `nObs` but matches the mask's true
count, repack in place (mutating the calibration); otherwise raise. -/
def Calib.coerceXcorr (c : Calib) (nObs : ℕ) (amp : String) : Except BFKError Calib := do
  let xc ← lookupE c.rawXcorrs amp
  let correlationShape := shape3 xc
  if nObs ≠ correlationShape.1 then do
    let mask ← lookupE c.expIdMask amp
    if correlationShape.1 = mask.count true then
      c.repackCorrelations amp correlationShape
    else throw .badCorrelationShape
  else pure c

/-- State-threading fold over amplifier names (the mutating loops of the
export methods). -/
def exFold (f : Calib → String → Except BFKError Calib) :
    Calib → List String → Except BFKError Calib
  | c, [] => .ok c
  | c, amp :: rest => do
    let c2 ← f c amp
    exFold f c2 rest

/-- `BrighterFatterKernel.toDict`.  The returned calibration is the state of
`self` after the call (the repacking step mutates `self.rawXcorrs`). -/
def toDict (c : Calib) : Except BFKError (BFKDict × Calib) := do
  let metadata := c.exportMetadata
  let lens ← c.getLengths
  let kernelLength := lens.1
  let smallLength := lens.2.1
  let nObs := lens.2.2
  let outMask := c.expIdMask
  let outMeans := c.rawMeans
  let outVars := c.rawVariances
  let c2 ← exFold (fun acc amp => acc.coerceXcorr nObs amp) c (c.rawXcorrs.map Prod.fst)
  let outX ← exMap (fun p => do
      let flat ← optE (ravel3To (nObs * smallLength) p.2) .reshapeError
      pure (p.1, flat)) c2.rawXcorrs
  let outMX ← exMap (fun p => do
      let flat ← optE (ravelTo kernelLength p.2) .reshapeError
      pure (p.1, flat)) c2.meanXcorrs
  let outAK ← exMap (fun p => do
      let flat ← optE (ravelTo kernelLength p.2) .reshapeError
      pure (p.1, flat)) c2.ampKernels
  let outDK ← exMap (fun p => do
      let flat ← optE (ravelTo kernelLength p.2) .reshapeError
      pure (p.1, flat)) c2.detKernels
  pure ({ metadata := metadata,
          expIdMask := some outMask, rawMeans := some outMeans, rawVariances := some outVars,
          means := none, variances := none,
          rawXcorrs := outX, badAmps := c2.badAmps, gain := c2.gain, noise := c2.noise,
          meanXcorrs := outMX, ampKernels := outAK,
          valid := c2.valid.map (fun p => (p.1, PyVal.pyBool p.2)),
          detKernels := outDK }, c2)

/-- The amplifier table (`tableList[0]`), column-wise.  Version-dependent
columns are `Option`-valued (an absent column raises on access); the
`VALID` column holds Python scalars since legacy tables may store
non-boolean validity values. -/
structure AmpTable where
  meta : Metadata
  amplifier : List String
  expIdMaskCol : Option (List (List Bool))
  rawMeansCol : Option (List (List Flt))
  rawVariancesCol : Option (List (List Flt))
  meansCol : Option (List (List Flt))
  variancesCol : Option (List (List Flt))
  rawXcorrsCol : List (List Flt)
  gainCol : List Flt
  noiseCol : List Flt
  meanXcorrsCol : List (List Flt)
  kernelCol : List (List Flt)
  validCol : List PyVal
deriving DecidableEq, Repr

/-- The optional detector table (`tableList[1]`). -/
structure DetTable where
  meta : Metadata
  detector : List String
  kernelCol : List (List Flt)
deriving DecidableEq, Repr

/-- The dictionary `fromTable` assembles from the tables before delegating
to `fromDict` (the body of `BrighterFatterKernel.fromTable` up to the final
`cls.fromDict(inDict)` call). -/
def fromTableDict (t : AmpTable) (dt : Option DetTable) : Except BFKError BFKDict := do
  let metadata := t.meta
  let amps := t.amplifier
  let calibVersion := metadata.bfkVersion
  let vfields ←
    if calibVersion = 1 then do
      let rawMeanList ← optE t.meansCol .keyError
      let rawVarianceList ← optE t.variancesCol .keyError
      pure ((none : Option (List (String × List Bool))),
            (none : Option (List (String × List Flt))),
            (none : Option (List (String × List Flt))),
            some (amps.zip rawMeanList), some (amps.zip rawVarianceList))
    else if calibVersion = currentVersion then do
      let expIdMaskList ← optE t.expIdMaskCol .keyError
      let rawMeanList ← optE t.rawMeansCol .keyError
      let rawVarianceList ← optE t.rawVariancesCol .keyError
      pure (some (amps.zip expIdMaskList), some (amps.zip rawMeanList),
            some (amps.zip rawVarianceList), none, none)
    else throw .unknownVersion
  -- the table's validity entries are coerced with bool() as the dictionary
  -- is assembled, before the `is False` test derives badAmps
  let validD := (amps.zip t.validCol).map (fun p => (p.1, PyVal.pyBool p.2.toBool))
  pure { metadata := metadata,
         expIdMask := vfields.1, rawMeans := vfields.2.1, rawVariances := vfields.2.2.1,
         means := vfields.2.2.2.1, variances := vfields.2.2.2.2,
         rawXcorrs := amps.zip t.rawXcorrsCol,
         badAmps := (validD.filter (fun p => p.2.isFalseObj)).map Prod.fst,
         gain := amps.zip t.gainCol, noise := amps.zip t.noiseCol,
         meanXcorrs := amps.zip t.meanXcorrsCol, ampKernels := amps.zip t.kernelCol,
         valid := validD,
         detKernels := (match dt with
                        | some d => d.detector.zip d.kernelCol
                        | none => []) }

/-- `BrighterFatterKernel.fromTable`. -/
def fromTable (t : AmpTable) (dt : Option DetTable) : Except BFKError Calib := do
  let inDict ← fromTableDict t dt
  fromDict inDict

/-- The per-amplifier column accumulators of `toTable`. -/
structure AmpRows where
  amps : List String
  masks : List (List Bool)
  means : List (List Flt)
  vars : List (List Flt)
  xcorrs : List (List Flt)
  gains : List Flt
  noises : List Flt
  meanXs : List (List Flt)
  kernels : List (List Flt)
  valids : List PyVal
deriving DecidableEq, Repr

/-- The amplifier loop of `toTable`: one iteration per key of `rawMeans`,
threading the calibration state (the repack step may mutate it). -/
def buildAmpRows (nObs smallLength kernelLength : ℕ) :
    Calib → List String → Except BFKError (AmpRows × Calib)
  | c, [] => .ok (⟨[], [], [], [], [], [], [], [], [], []⟩, c)
  | c, amp :: rest => do
    let mask ← lookupE c.expIdMask amp
    let mean ← lookupE c.rawMeans amp
    let var ← lookupE c.rawVariances amp
    let c2 ← c.coerceXcorr nObs amp
    let xc ← lookupE c2.rawXcorrs amp
    let flatX ← optE (ravel3To (nObs * smallLength) xc) .reshapeError
    let g ← lookupE c2.gain amp
    let nz ← lookupE c2.noise amp
    let mxv ← lookupE c2.meanXcorrs amp
    let flatM ← optE (ravelTo kernelLength mxv) .reshapeError
    let akv ← lookupE c2.ampKernels amp
    let flatK ← optE (ravelTo kernelLength akv) .reshapeError
    let v ← lookupE c2.valid amp
    -- VALID column: int(self.valid[amp] and not (amp in self.badAmps))
    let vEnc : PyVal := .pyInt (if v && !(c2.badAmps.contains amp) then 1 else 0)
    let st ← buildAmpRows nObs smallLength kernelLength c2 rest
    .ok (⟨amp :: st.1.amps, mask :: st.1.masks, mean :: st.1.means, var :: st.1.vars,
          flatX :: st.1.xcorrs, g :: st.1.gains, nz :: st.1.noises, flatM :: st.1.meanXs,
          flatK :: st.1.kernels, vEnc :: st.1.valids⟩, st.2)

/-- `BrighterFatterKernel.toTable`.  The returned calibration is the state
of `self` after the call. -/
def toTable (c : Calib) : Except BFKError ((AmpTable × Option DetTable) × Calib) := do
  let metadata := c.exportMetadata
  let lens ← c.getLengths
  let kernelLength := lens.1
  let smallLength := lens.2.1
  let nObs := lens.2.2
  let st ←
    if c.level = "AMP" then
      buildAmpRows nObs smallLength kernelLength c (c.rawMeans.map Prod.fst)
    else
      pure (⟨⟨[], [], [], [], [], [], [], [], [], []⟩, c⟩ : AmpRows × Calib)
  let rows := st.1
  let c2 := st.2
  let ampTab : AmpTable := {
    meta := metadata, amplifier := rows.amps, expIdMaskCol := some rows.masks,
    rawMeansCol := some rows.means, rawVariancesCol := some rows.vars,
    meansCol := none, variancesCol := none, rawXcorrsCol := rows.xcorrs,
    gainCol := rows.gains, noiseCol := rows.noises, meanXcorrsCol := rows.meanXs,
    kernelCol := rows.kernels, validCol := rows.valids }
  let detTab ←
    if c2.detKernels.length ≠ 0 then do
      let dk ← exMap (fun p => do
          let flat ← optE (ravelTo kernelLength p.2) .reshapeError
          pure (p.1, flat)) c2.detKernels
      pure (some ({ meta := metadata, detector := dk.map Prod.fst,
                    kernelCol := dk.map Prod.snd } : DetTable))
    else pure (none : Option DetTable)
  pure ((ampTab, detTab), c2)

/-- Arithmetic mean of a list of rationals (0 on the empty list; the
aggregation below only applies it to nonempty data). -/
def qmean (xs : List ℚ) : ℚ := xs.sum / xs.length

/-- Modelled from the spec: one pass of the external sigma-clipped-mean
primitive (`afwMath.makeStatistics(..., MEANCLIP)` with
`setNumSigmaClip(5.0)`, which is not part of this repository): points whose
deviation from the mean exceeds 5 standard deviations are excluded.  The
comparison is between squared deviations and `(5 σ)²` so the model stays in
`ℚ`. -/
def clipStep (xs : List ℚ) : List ℚ :=
  let μ := qmean xs
  let v := qmean (xs.map (fun x => (x - μ) ^ 2))
  xs.filter (fun x => decide ((x - μ) ^ 2 ≤ 25 * v))

/-- Modelled from the spec: the clip pass is repeated until no further
points are excluded or the iteration cap (fuel) is reached. -/
def clipIter : ℕ → List ℚ → List ℚ
  | 0, xs => xs
  | n + 1, xs =>
    let ys := clipStep xs
    if ys = xs then xs else clipIter n ys

/-- Modelled from the spec: the sigma-clipped mean with clip threshold 5σ,
iterated to convergence; fuel `xs.length` suffices since every
non-converged pass removes at least one point. -/
def sigmaClipMean (xs : List ℚ) : ℚ := qmean (clipIter xs.length xs)

/-- The sigma-clipped mean on stored float values; the not-a-number
sentinel propagates (the claims only use finite data). -/
def sigmaClipMeanFlt (xs : List Flt) : Flt :=
  match xs.mapM (fun x => match x with | .val q => some q | .nan => none) with
  | some qs => .val (sigmaClipMean qs)
  | none => .nan

/-- The entry vector `averagingList[i, j]` built by the `np.transpose` in
`makeDetectorKernelFromAmpwiseKernels`: since `averagingList` is the full
axis reversal of the `(N, rows, cols)` stack, the vector aggregated into
detector-kernel coordinate `(i, j)` is `inKernels[:, j, i]`, i.e. the
amplifier kernels are read at the transposed coordinate. -/
def stackAt (inKernels : List Mat) (i j : ℕ) : Option (List Flt) :=
  inKernels.mapM (fun K => (K.get? j).bind (fun row => row.get? i))

/-- `BrighterFatterKernel.makeDetectorKernelFromAmpwiseKernels`. -/
def Calib.makeDetectorKernelFromAmpwiseKernels (c : Calib) (detectorName : String)
    (ampsToExclude : List String := []) : Except BFKError Calib := do
  let inKernels := (c.ampKernels.filter (fun p => !(ampsToExclude.contains p.1))).map Prod.snd
  let first ← optE inKernels.head? .indexError
  let rows := first.length
  let cols := (first.headD []).length
  let avgKernel ← exMap (fun i => exMap (fun j => do
      let data ← optE (stackAt inKernels i j) .indexError
      pure (sigmaClipMeanFlt data)) (List.range cols)) (List.range rows)
  pure { c with detKernels := aset detectorName avgKernel c.detKernels }

/-! ### Shape predicates -/

/-- A rectangular `r × c` matrix. -/
def IsMat (r c : ℕ) (m : Mat) : Prop := m.length = r ∧ ∀ row ∈ m, row.length = c

/-- A stack of `n` rectangular `r × c` matrices. -/
def IsStack (n r c : ℕ) (xs : List Mat) : Prop := xs.length = n ∧ ∀ m ∈ xs, IsMat r c m

instance (r c : ℕ) (m : Mat) : Decidable (IsMat r c m) := by
  unfold IsMat; infer_instance

instance (n r c : ℕ) (xs : List Mat) : Decidable (IsStack n r c xs) := by
  unfold IsStack; infer_instance

/-! ### Concrete data used by the witnesses and counterexamples -/

/-- A 3×3 kernel-shaped matrix with distinct (asymmetric) entries. -/
def kern9 : Mat :=
  [[.val 0, .val 1, .val 2], [.val 3, .val 4, .val 5], [.val 6, .val 7, .val 8]]

/-- The same matrix offset by +1000 at every coordinate. -/
def kern9off : Mat :=
  [[.val 1000, .val 1001, .val 1002], [.val 1003, .val 1004, .val 1005],
   [.val 1006, .val 1007, .val 1008]]

/-- `kern9` flattened row-major. -/
def kern9flat : List Flt :=
  [.val 0, .val 1, .val 2, .val 3, .val 4, .val 5, .val 6, .val 7, .val 8]

/-- A populated single-amplifier AMP-level calibration with `shape = (3,3)`,
two observation pairs and full-length correlations. -/
def sampleAmp : Calib :=
  { level := "AMP", shape := (3, 3),
    expIdMask := [("A", [true, true])],
    rawMeans := [("A", [.val 1, .val 2])],
    rawVariances := [("A", [.val (1 / 10), .val (2 / 10)])],
    rawXcorrs := [("A", [[[.val 5]], [[.val 6]]])],
    badAmps := [],
    gain := [("A", .val 1)], noise := [("A", .val 0)],
    meanXcorrs := [("A", kern9)], ampKernels := [("A", kern9)],
    valid := [("A", true)], detKernels := [] }

/-- Like `sampleAmp` but with one masked-out observation and a compacted
(length-1) correlation sequence, so that export must repack. -/
def compactSample : Calib :=
  { sampleAmp with
    expIdMask := [("A", [true, false])],
    rawXcorrs := [("A", [[[.val 7]]])] }

/-- A calibration with a five-entry mask (three observed) and a compacted
three-entry correlation sequence, matching the spec's repacking example. -/
def compactFiveSample : Calib :=
  { sampleAmp with
    expIdMask := [("A", [true, false, true, false, true])],
    rawMeans := [("A", [.val 1, .val 2, .val 3, .val 4, .val 5])],
    rawVariances := [("A", [.val 1, .val 2, .val 3, .val 4, .val 5])],
    rawXcorrs := [("A", [[[.val 1]], [[.val 2]], [[.val 3]]])] }

/-- An AMP-level calibration with no amplifiers at all (as freshly
constructed without a camera). -/
def emptySample : Calib :=
  { level := "AMP", shape := (17, 17), expIdMask := [], rawMeans := [],
    rawVariances := [], rawXcorrs := [], badAmps := [], gain := [], noise := [],
    meanXcorrs := [], ampKernels := [], valid := [], detKernels := [] }

/-- A DETECTOR-level calibration. -/
def detSample : Calib :=
  { emptySample with level := "DETECTOR", detKernels := [("DET", kern9)], shape := (3, 3) }

/-- An AMP-level calibration whose two amplifiers disagree on the
observation count (10 vs 12 raw means). -/
def inconsistentSample : Calib :=
  { emptySample with
    rawMeans := [("A", List.replicate 10 (Flt.val 0)), ("B", List.replicate 12 (Flt.val 0))] }

/-- A version-1.0 persisted mapping carrying `means`/`variances`, as in the
spec's migration example. -/
def legacyDict : BFKDict :=
  { metadata := { obstype := "bfk", bfkVersion := 1, level := some "AMP",
                  kernelDx := some 3, kernelDy := some 3 },
    expIdMask := none, rawMeans := none, rawVariances := none,
    means := some [("A", [.val 1, .val 2])],
    variances := some [("A", [.val (1 / 10), .val (2 / 10)])],
    rawXcorrs := [("A", [.val 5, .val 6])],
    badAmps := [],
    gain := [("A", .val 1)], noise := [("A", .val 0)],
    meanXcorrs := [("A", kern9flat)],
    ampKernels := [("A", kern9flat)],
    valid := [("A", .pyBool true)],
    detKernels := [] }

/-- The calibration `fromDict` constructs from `legacyDict`. -/
def legacyCalib : Calib :=
  { level := "AMP", shape := (3, 3),
    expIdMask := [("A", [true, true])],
    rawMeans := [("A", [.val 1, .val 2])],
    rawVariances := [("A", [.val (1 / 10), .val (2 / 10)])],
    rawXcorrs := [("A", [[[.val 5]], [[.val 6]]])],
    badAmps := [],
    gain := [("A", .val 1)], noise := [("A", .val 0)],
    meanXcorrs := [("A", kern9)], ampKernels := [("A", kern9)],
    valid := [("A", true)], detKernels := [] }

/-- `legacyDict` with an unsupported schema version tag 2.0. -/
def badVersionDict : BFKDict :=
  { legacyDict with metadata := { legacyDict.metadata with bfkVersion := 2 } }

/-- An amplifier table tagged with unsupported schema version 2.0. -/
def badVersionTable : AmpTable :=
  { meta := { obstype := "bfk", bfkVersion := 2, level := some "AMP",
              kernelDx := some 3, kernelDy := some 3 },
    amplifier := ["A"], expIdMaskCol := some [[true, true]],
    rawMeansCol := some [[.val 1, .val 2]], rawVariancesCol := some [[.val 1, .val 2]],
    meansCol := none, variancesCol := none, rawXcorrsCol := [[.val 5, .val 6]],
    gainCol := [.val 1], noiseCol := [.val 0], meanXcorrsCol := [kern9flat],
    kernelCol := [kern9flat], validCol := [.pyBool true] }

/-- `legacyDict` with a falsy non-boolean persisted validity value
(the Python integer 0). -/
def pyIntValidDict : BFKDict :=
  { legacyDict with valid := [("A", .pyInt 0)] }

/-- The calibration `fromDict` constructs from `pyIntValidDict`: validity is
coerced to `false`, yet the amplifier is not recorded in `badAmps`. -/
def pyIntValidCalib : Calib := { legacyCalib with valid := [("A", false)] }

/-- A legacy (version 1.0) amplifier table whose VALID column holds the
Python integer 0. -/
def intValidTable : AmpTable :=
  { meta := { obstype := "bfk", bfkVersion := 1, level := some "AMP",
              kernelDx := some 3, kernelDy := some 3 },
    amplifier := ["A"], expIdMaskCol := none, rawMeansCol := none,
    rawVariancesCol := none, meansCol := some [[.val 1]],
    variancesCol := some [[.val 1]], rawXcorrsCol := [[.val 5]],
    gainCol := [.val 1], noiseCol := [.val 0], meanXcorrsCol := [kern9flat],
    kernelCol := [kern9flat], validCol := [.pyInt 0] }

/-- The dictionary `fromTable` assembles from `intValidTable`: the VALID
entry is coerced to a genuine boolean before the badAmps derivation, so
"A" does land in `badAmps` on this path. -/
def intValidDict : BFKDict :=
  { metadata := { obstype := "bfk", bfkVersion := 1, level := some "AMP",
                  kernelDx := some 3, kernelDy := some 3 },
    expIdMask := none, rawMeans := none, rawVariances := none,
    means := some [("A", [.val 1])], variances := some [("A", [.val 1])],
    rawXcorrs := [("A", [.val 5])], badAmps := ["A"],
    gain := [("A", .val 1)], noise := [("A", .val 0)],
    meanXcorrs := [("A", kern9flat)], ampKernels := [("A", kern9flat)],
    valid := [("A", .pyBool false)], detKernels := [] }

/-- The state of `compactSample` after export: the compacted correlation
sequence has been replaced in place by its repacked form. -/
def compactMutated : Calib :=
  { compactSample with rawXcorrs := [("A", [[[.val 7]], [[Flt.nan]]])] }

/-- The mapping `toDict` produces for `compactSample`. -/
def compactDict : BFKDict :=
  { metadata := { obstype := "bfk", bfkVersion := currentVersion, level := some "AMP",
                  kernelDx := some 3, kernelDy := some 3 },
    expIdMask := some [("A", [true, false])],
    rawMeans := some [("A", [.val 1, .val 2])],
    rawVariances := some [("A", [.val (1 / 10), .val (2 / 10)])],
    means := none, variances := none,
    rawXcorrs := [("A", [.val 7, Flt.nan])],
    badAmps := [],
    gain := [("A", .val 1)], noise := [("A", .val 0)],
    meanXcorrs := [("A", kern9flat)], ampKernels := [("A", kern9flat)],
    valid := [("A", .pyBool true)], detKernels := [] }

/-- A two-amplifier calibration in which amplifier "B" is flagged valid yet
also listed in `badAmps` (exercising the combination of the two signals in
the exported validity column). -/
def twoAmpSample : Calib :=
  { level := "AMP", shape := (3, 3),
    expIdMask := [("A", [true, true]), ("B", [true, true])],
    rawMeans := [("A", [.val 1, .val 2]), ("B", [.val 3, .val 4])],
    rawVariances := [("A", [.val 1, .val 2]), ("B", [.val 3, .val 4])],
    rawXcorrs := [("A", [[[.val 5]], [[.val 6]]]), ("B", [[[.val 7]], [[.val 8]]])],
    badAmps := ["B"],
    gain := [("A", .val 1), ("B", .val 1)], noise := [("A", .val 0), ("B", .val 0)],
    meanXcorrs := [("A", kern9), ("B", kern9)],
    ampKernels := [("A", kern9), ("B", kern9)],
    valid := [("A", true), ("B", true)], detKernels := [] }

/-- The amplifier table `toTable` produces for `twoAmpSample`: "B" is
valid but bad, so its VALID column entry is 0. -/
def twoAmpTable : AmpTable :=
  { meta := { obstype := "bfk", bfkVersion := currentVersion, level := some "AMP",
              kernelDx := some 3, kernelDy := some 3 },
    amplifier := ["A", "B"],
    expIdMaskCol := some [[true, true], [true, true]],
    rawMeansCol := some [[.val 1, .val 2], [.val 3, .val 4]],
    rawVariancesCol := some [[.val 1, .val 2], [.val 3, .val 4]],
    meansCol := none, variancesCol := none,
    rawXcorrsCol := [[.val 5, .val 6], [.val 7, .val 8]],
    gainCol := [.val 1, .val 1], noiseCol := [.val 0, .val 0],
    meanXcorrsCol := [kern9flat, kern9flat],
    kernelCol := [kern9flat, kern9flat],
    validCol := [.pyInt 1, .pyInt 0] }

/-- The mapping `toDict` produces for a consistent AMP-level calibration:
metadata from `updateMetadata`, observation-indexed fields copied, every
array field flattened row-major, `valid` passed through as booleans. -/
def exportDict (x : Calib) : BFKDict :=
  { metadata := x.exportMetadata,
    expIdMask := some x.expIdMask, rawMeans := some x.rawMeans,
    rawVariances := some x.rawVariances, means := none, variances := none,
    rawXcorrs := x.rawXcorrs.map (fun p => (p.1, p.2.flatten.flatten)),
    badAmps := x.badAmps, gain := x.gain, noise := x.noise,
    meanXcorrs := x.meanXcorrs.map (fun p => (p.1, p.2.flatten)),
    ampKernels := x.ampKernels.map (fun p => (p.1, p.2.flatten)),
    valid := x.valid.map (fun p => (p.1, PyVal.pyBool p.2)),
    detKernels := x.detKernels.map (fun p => (p.1, p.2.flatten)) }

/-- A 3×3 matrix of arbitrary rational entries, row-major. -/
def m33 (a b c d e f g h i : ℚ) : Mat :=
  [[.val a, .val b, .val c], [.val d, .val e, .val f], [.val g, .val h, .val i]]

/-- Five amplifiers with identical 3×3 kernels except the last, which is
offset by +1000 at every coordinate (the aggregation-robustness scenario,
with arbitrary rational common entries). -/
def aggSample (a b c d e f g h i : ℚ) : Calib :=
  { emptySample with
    shape := (3, 3),
    ampKernels := [("A1", m33 a b c d e f g h i), ("A2", m33 a b c d e f g h i),
                   ("A3", m33 a b c d e f g h i), ("A4", m33 a b c d e f g h i),
                   ("A5", m33 (a + 1000) (b + 1000) (c + 1000) (d + 1000) (e + 1000)
                      (f + 1000) (g + 1000) (h + 1000) (i + 1000))] }

/-- The concrete instance of the aggregation scenario built on `kern9`. -/
def aggConcrete : Calib :=
  { emptySample with
    shape := (3, 3),
    ampKernels := [("A1", kern9), ("A2", kern9), ("A3", kern9), ("A4", kern9),
                   ("A5", kern9off)] }

/-! ### Basic lemmas about the embedding's containers -/

universe u

/-- The schema version written by export is the literal 1.1. -/
theorem currentVersion_eq : currentVersion = 11 / 10 := by
  show (⟨11, 10, by decide, by decide⟩ : ℚ) = 11 / 10
  rw [Rat.mk'_eq_divInt, Rat.divInt_eq_div]
  norm_num

theorem ok_bind {α β : Type u} {a : α} {f : α → Except BFKError β} :
    (Except.ok a : Except BFKError α) >>= f = f a := rfl

theorem error_bind {α β : Type u} {e : BFKError} {f : α → Except BFKError β} :
    (Except.error e : Except BFKError α) >>= f = Except.error e := rfl

theorem bind_ok_inv {α β : Type u} {e : Except BFKError α} {f : α → Except BFKError β} {b : β}
    (h : e >>= f = .ok b) : ∃ a, e = .ok a ∧ f a = .ok b := by
  cases e with
  | ok a => exact ⟨a, rfl, h⟩
  | error err => rw [error_bind] at h; exact absurd h (by simp)

@[simp] theorem lookupE_eq_ok {m : List (String × α)} {k : String} {v : α} :
    lookupE m k = .ok v ↔ alookup k m = some v := by
  unfold lookupE
  cases h : alookup k m <;> simp_all

@[simp] theorem optE_eq_ok {o : Option α} {e : BFKError} {v : α} :
    optE o e = .ok v ↔ o = some v := by
  unfold optE
  cases o <;> simp_all

theorem alookup_of_mem_nodup {l : List (String × α)} {p : String × α}
    (hnd : (l.map Prod.fst).Nodup) (hp : p ∈ l) : alookup p.1 l = some p.2 := by
  induction l with
  | nil => cases hp
  | cons q t ih =>
    simp only [List.map_cons, List.nodup_cons] at hnd
    rcases List.mem_cons.mp hp with rfl | hp2
    · simp [alookup]
    · have hne : q.1 ≠ p.1 := fun he => hnd.1 (he ▸ List.mem_map_of_mem Prod.fst hp2)
      simp [alookup, hne, ih hnd.2 hp2]

theorem alookup_mem {l : List (String × α)} {k : String} {v : α}
    (h : alookup k l = some v) : (k, v) ∈ l := by
  induction l with
  | nil => simp [alookup] at h
  | cons q t ih =>
    by_cases hq : q.1 = k
    · simp only [alookup, if_pos hq] at h
      obtain ⟨q1, q2⟩ := q
      obtain rfl : q2 = v := by injection h
      subst hq
      exact .head _
    · simp only [alookup, if_neg hq] at h
      exact .tail _ (ih h)

@[simp] theorem optE_some {v : α} {e : BFKError} : optE (some v) e = .ok v := rfl

theorem pure_bind {α β : Type u} {a : α} {f : α → Except BFKError β} :
    (pure a : Except BFKError α) >>= f = f a := rfl

@[simp] theorem exMap_nil {f : α → Except BFKError β} : exMap f [] = .ok [] := rfl

theorem exMap_cons {f : α → Except BFKError β} {a : α} {l : List α} :
    exMap f (a :: l) = f a >>= fun b => exMap f l >>= fun bs => pure (b :: bs) := rfl

theorem exMap_congr {f g : α → Except BFKError β} {l : List α}
    (h : ∀ a ∈ l, f a = g a) : exMap f l = exMap g l := by
  induction l with
  | nil => rfl
  | cons a t ih =>
    rw [exMap_cons, exMap_cons, h a (.head t), ih (fun b hb => h b (.tail a hb))]

theorem exMap_ok_of {f : α → Except BFKError β} {g : α → β} {l : List α}
    (h : ∀ a ∈ l, f a = .ok (g a)) : exMap f l = .ok (l.map g) := by
  induction l with
  | nil => rfl
  | cons a t ih =>
    rw [exMap_cons, h a (.head t), ih (fun b hb => h b (.tail a hb)), ok_bind, ok_bind]
    rfl

theorem exMap_map_ok {β γ δ : Type} (l : List (String × β)) (f : β → γ)
    (body : String × γ → Except BFKError δ) (g : String × β → δ)
    (h : ∀ p ∈ l, body (p.1, f p.2) = .ok (g p)) :
    exMap body (l.map (fun p => (p.1, f p.2))) = .ok (l.map g) := by
  induction l with
  | nil => rfl
  | cons a t ih =>
    rw [List.map_cons, exMap_cons, h a (.head t), ih (fun b hb => h b (.tail a hb)),
      ok_bind, ok_bind]
    rfl

theorem map_fst_pairs {β γ : Type} {l : List (String × β)} {f : β → γ} :
    (l.map (fun p => (p.1, f p.2))).map Prod.fst = l.map Prod.fst := by
  rw [List.map_map]
  rfl

theorem exFold_const {f : Calib → String → Except BFKError Calib} {c : Calib} {l : List String}
    (h : ∀ a ∈ l, f c a = .ok c) : exFold f c l = .ok c := by
  induction l with
  | nil => rfl
  | cons a t ih =>
    show f c a >>= (fun c2 => exFold f c2 t) = .ok c
    rw [h a (.head t), ok_bind, ih (fun b hb => h b (.tail a hb))]

/-! ### Reshape and flatten lemmas -/

theorem flatten_length_of_isMat {r c : ℕ} {m : Mat} (h : IsMat r c m) :
    m.flatten.length = r * c := by
  obtain ⟨hr, hc⟩ := h
  subst hr
  induction m with
  | nil => simp
  | cons row t ih =>
    simp only [List.flatten_cons, List.length_append, List.length_cons,
      hc row (.head t), ih (fun x hx => hc x (.tail row hx))]
    ring

theorem ravelTo_of_isMat {r c : ℕ} {m : Mat} (h : IsMat r c m) :
    ravelTo (r * c) m = some m.flatten := by
  unfold ravelTo
  simp [flatten_length_of_isMat h]

theorem reshape2_flatten {r c : ℕ} {m : Mat} (h : IsMat r c m) :
    reshape2 r c m.flatten = some m := by
  obtain ⟨hr, hc⟩ := h
  subst hr
  induction m with
  | nil => simp [reshape2]
  | cons row t ih =>
    have hrow : row.length = c := hc row (.head t)
    have htail : ∀ x ∈ t, x.length = c := fun x hx => hc x (.tail row hx)
    have hlen : c ≤ (row ++ t.flatten).length := by
      simp [hrow]
    simp only [List.length_cons, List.flatten_cons, reshape2]
    rw [if_neg (Nat.not_lt.mpr hlen)]
    rw [show (row ++ t.flatten).drop c = t.flatten by
          rw [← hrow, List.drop_left],
        show (row ++ t.flatten).take c = row by
          rw [← hrow, List.take_left],
        ih htail]
    rfl

theorem stack_flatten_length {n r c : ℕ} {xs : List Mat} (h : IsStack n r c xs) :
    xs.flatten.flatten.length = n * (r * c) := by
  obtain ⟨hn, hm⟩ := h
  subst hn
  induction xs with
  | nil => simp
  | cons m t ih =>
    simp only [List.flatten_cons, List.flatten_append, List.length_append, List.length_cons,
      flatten_length_of_isMat (hm m (.head t)), ih (fun x hx => hm x (.tail m hx))]
    ring

theorem ravel3To_of_isStack {n r c : ℕ} {xs : List Mat} (h : IsStack n r c xs) :
    ravel3To (n * (r * c)) xs = some xs.flatten.flatten := by
  unfold ravel3To
  simp [stack_flatten_length h]

theorem reshape3_flatten {n r c : ℕ} {xs : List Mat} (h : IsStack n r c xs) :
    reshape3 n r c xs.flatten.flatten = some xs := by
  obtain ⟨hn, hm⟩ := h
  subst hn
  induction xs with
  | nil => simp [reshape3]
  | cons m t ih =>
    have hmflat : m.flatten.length = r * c := flatten_length_of_isMat (hm m (.head t))
    have htail : ∀ x ∈ t, IsMat r c x := fun x hx => hm x (.tail m hx)
    simp only [List.flatten_cons, List.flatten_append, reshape3]
    rw [show (m.flatten ++ t.flatten.flatten).take (r * c) = m.flatten by
          rw [← hmflat, List.take_left],
        show (m.flatten ++ t.flatten.flatten).drop (r * c) = t.flatten.flatten by
          rw [← hmflat, List.drop_left],
        reshape2_flatten (hm m (.head t))]
    show (reshape3 t.length r c t.flatten.flatten).bind _ = _
    rw [ih htail]
    rfl

/-! ### getLengths lemmas -/

theorem dedup_eq_singleton {l : List ℕ} {n : ℕ} (hne : l ≠ [])
    (h : ∀ x ∈ l, x = n) : l.dedup = [n] := by
  induction l with
  | nil => exact absurd rfl hne
  | cons a t ih =>
    have ha : a = n := h a (.head t)
    subst ha
    cases t with
    | nil => simp
    | cons b t2 =>
      have hb : b = a := (h b (.tail a (.head t2))).trans (h a (.head _)).symm
      have hmem : a ∈ b :: t2 := hb ▸ .head t2
      rw [List.dedup_cons_of_mem hmem]
      exact ih (by simp) (fun x hx => h x (.tail a hx))

theorem lengthsOf_amp_ok {shape : ℕ × ℕ} {rawMeans : List (String × List Flt)} {n : ℕ}
    (hne : rawMeans ≠ []) (h : ∀ p ∈ rawMeans, p.2.length = n) :
    lengthsOf "AMP" shape rawMeans =
      .ok (shape.1 * shape.2, (shape.1 - 1) * (shape.2 - 1) / 4, n) := by
  have hall : ∀ x ∈ rawMeans.map (fun p => p.2.length), x = n := by
    intro x hx
    obtain ⟨p, hp, rfl⟩ := List.mem_map.mp hx
    exact h p hp
  have hne2 : rawMeans.map (fun p => p.2.length) ≠ [] := by simpa using hne
  unfold lengthsOf
  rw [dedup_eq_singleton hne2 hall]
  simp

theorem lengthsOf_not_amp {level : String} {shape : ℕ × ℕ}
    {rawMeans : List (String × List Flt)} (h : level ≠ "AMP") :
    lengthsOf level shape rawMeans =
      .ok (shape.1 * shape.2, (shape.1 - 1) * (shape.2 - 1) / 4, 0) := by
  unfold lengthsOf
  rw [if_neg h]

theorem lengthsOf_inconsistent {shape : ℕ × ℕ} {rawMeans : List (String × List Flt)}
    {p q : String × List Flt}
    (hp : p ∈ rawMeans) (hq : q ∈ rawMeans) (hpq : p.2.length ≠ q.2.length) :
    lengthsOf "AMP" shape rawMeans = .error .inconsistentObservations := by
  have hp2 : p.2.length ∈ (rawMeans.map (fun r => r.2.length)).dedup :=
    List.mem_dedup.mpr (List.mem_map_of_mem _ hp)
  have hq2 : q.2.length ∈ (rawMeans.map (fun r => r.2.length)).dedup :=
    List.mem_dedup.mpr (List.mem_map_of_mem _ hq)
  rcases hd : (rawMeans.map (fun r => r.2.length)).dedup with _ | ⟨a, _ | ⟨b, t⟩⟩
  · rw [hd] at hp2; cases hp2
  · rw [hd] at hp2 hq2
    simp only [List.mem_singleton] at hp2 hq2
    exact absurd (hp2.trans hq2.symm) hpq
  · simp only [lengthsOf, if_true]
    rw [hd]

theorem lengthsOf_empty {shape : ℕ × ℕ} :
    lengthsOf "AMP" shape [] = .error .inconsistentObservations := by
  simp only [lengthsOf, if_true]
  rfl

/-! ### Reconstruction lemmas for the per-amplifier comprehensions -/

theorem exMap_pair_ok {β γ : Type} {l : List (String × β)} {g : β → Option γ} (d0 : γ)
    {e : BFKError} (h : ∀ p ∈ l, (g p.2).isSome) :
    exMap (fun p => do
        let m ← optE (g p.2) e
        pure (p.1, m)) l = .ok (l.map (fun p => (p.1, (g p.2).getD d0))) := by
  refine exMap_ok_of (fun p hp => ?_)
  obtain ⟨v, hv⟩ := Option.isSome_iff_exists.mp (h p hp)
  rw [hv]
  rfl

theorem exMap_lookup_ok {β γ : Type} (l₁ : List (String × α)) (l₂ : List (String × β))
    (g : β → Option γ) (d0 : γ) {e : BFKError}
    (hk : l₁.map Prod.fst = l₂.map Prod.fst) (hnd : (l₂.map Prod.fst).Nodup)
    (h : ∀ p ∈ l₂, (g p.2).isSome) :
    exMap (fun p => do
        let flat ← lookupE l₂ p.1
        let m ← optE (g flat) e
        pure (p.1, m)) l₁ = .ok (l₂.map (fun p => (p.1, (g p.2).getD d0))) := by
  induction l₂ generalizing l₁ with
  | nil =>
    have h0 : l₁ = [] := by
      cases l₁ with
      | nil => rfl
      | cons a t => simp at hk
    subst h0; rfl
  | cons q t ih =>
    cases l₁ with
    | nil => simp at hk
    | cons p1 t1 =>
      simp only [List.map_cons, List.cons.injEq] at hk
      obtain ⟨hk1, hkt⟩ := hk
      simp only [List.map_cons, List.nodup_cons] at hnd
      obtain ⟨v, hv⟩ := Option.isSome_iff_exists.mp (h q (.head t))
      rw [exMap_cons]
      have hlook : lookupE (q :: t) p1.1 = .ok q.2 := by
        simp [lookupE, alookup, hk1]
      rw [hlook, ok_bind, hv]
      have hbody : ∀ p ∈ t1,
          (do
            let flat ← lookupE (q :: t) p.1
            let m ← optE (g flat) e
            pure (p.1, m) : Except BFKError (String × γ)) =
          (do
            let flat ← lookupE t p.1
            let m ← optE (g flat) e
            pure (p.1, m)) := by
        intro p hp
        have hpk : p.1 ∈ t.map Prod.fst := hkt ▸ List.mem_map_of_mem Prod.fst hp
        have hne : q.1 ≠ p.1 := fun he => hnd.1 (he ▸ hpk)
        simp [lookupE, alookup, hne]
      rw [exMap_congr hbody, ih t1 hkt hnd.2 (fun p hp => h p (.tail q hp))]
      simp only [List.map_cons, hv, Option.getD_some, hk1]
      rfl

/-! ### Frame lemmas: repacking only touches rawXcorrs -/

theorem repack_preserves {c c2 : Calib} {amp : String} {cs : ℕ × ℕ × ℕ}
    (h : c.repackCorrelations amp cs = .ok c2) :
    c2.level = c.level ∧ c2.shape = c.shape ∧ c2.expIdMask = c.expIdMask ∧
    c2.rawMeans = c.rawMeans ∧ c2.rawVariances = c.rawVariances ∧
    c2.badAmps = c.badAmps ∧ c2.gain = c.gain ∧ c2.noise = c.noise ∧
    c2.meanXcorrs = c.meanXcorrs ∧ c2.ampKernels = c.ampKernels ∧
    c2.valid = c.valid ∧ c2.detKernels = c.detKernels := by
  unfold Calib.repackCorrelations at h
  obtain ⟨mask, hm, h⟩ := bind_ok_inv h
  obtain ⟨xc, hx, h⟩ := bind_ok_inv h
  rcases hr : repackList mask xc (List.replicate cs.2.1 (List.replicate cs.2.2 Flt.nan))
      with _ | r
  · rw [hr] at h; cases h
  · rw [hr] at h
    obtain rfl : ({ c with rawXcorrs := aset amp r c.rawXcorrs } : Calib) = c2 := by
      injection h
    exact ⟨rfl, rfl, rfl, rfl, rfl, rfl, rfl, rfl, rfl, rfl, rfl, rfl⟩

theorem coerce_preserves {c c2 : Calib} {nObs : ℕ} {amp : String}
    (h : c.coerceXcorr nObs amp = .ok c2) :
    c2.level = c.level ∧ c2.shape = c.shape ∧ c2.expIdMask = c.expIdMask ∧
    c2.rawMeans = c.rawMeans ∧ c2.rawVariances = c.rawVariances ∧
    c2.badAmps = c.badAmps ∧ c2.gain = c.gain ∧ c2.noise = c.noise ∧
    c2.meanXcorrs = c.meanXcorrs ∧ c2.ampKernels = c.ampKernels ∧
    c2.valid = c.valid ∧ c2.detKernels = c.detKernels := by
  unfold Calib.coerceXcorr at h
  obtain ⟨xc, hx, h⟩ := bind_ok_inv h
  by_cases hn : nObs ≠ (shape3 xc).1
  · rw [if_pos hn] at h
    obtain ⟨mask, hm, h⟩ := bind_ok_inv h
    by_cases hc2 : (shape3 xc).1 = mask.count true
    · rw [if_pos hc2] at h
      exact repack_preserves h
    · rw [if_neg hc2] at h; cases h
  · rw [if_neg hn] at h
    obtain rfl : c = c2 := by injection h
    exact ⟨rfl, rfl, rfl, rfl, rfl, rfl, rfl, rfl, rfl, rfl, rfl, rfl⟩

/-! ### The repacking walk -/

theorem repackList_spec {mask : List Bool} {xs : List Mat} (ph : Mat)
    (hlen : xs.length = mask.count true) :
    ∃ r, repackList mask xs ph = some r ∧ r.length = mask.length ∧
      (∀ i, mask.get? i = some true → r.get? i = xs.get? ((mask.take i).count true)) ∧
      (∀ i, mask.get? i = some false → r.get? i = some ph) := by
  induction mask generalizing xs with
  | nil =>
    exact ⟨[], rfl, rfl, fun i h => by simp at h, fun i h => by simp at h⟩
  | cons b ms ih =>
    cases b with
    | true =>
      rw [List.count_cons_self] at hlen
      cases xs with
      | nil =>
        exact absurd hlen (by simp)
      | cons y rest =>
        have hlen2 : rest.length = ms.count true := by
          simpa using hlen
        obtain ⟨r, hr, hrl, hrt, hrf⟩ := ih hlen2
        refine ⟨y :: r, ?_, by simp [hrl], ?_, ?_⟩
        · simp [repackList, hr]
        · intro i hi
          match i with
          | 0 => simp
          | i + 1 =>
            simp only [List.get?_cons_succ] at hi ⊢
            rw [hrt i hi, List.take_succ_cons, List.count_cons_self, List.get?_cons_succ]
        · intro i hi
          match i with
          | 0 => simp at hi
          | i + 1 =>
            simp only [List.get?_cons_succ] at hi ⊢
            exact hrf i hi
    | false =>
      rw [List.count_cons_of_ne (by decide)] at hlen
      obtain ⟨r, hr, hrl, hrt, hrf⟩ := ih hlen
      refine ⟨ph :: r, ?_, by simp [hrl], ?_, ?_⟩
      · simp [repackList, hr]
      · intro i hi
        match i with
        | 0 => simp at hi
        | i + 1 =>
          simp only [List.get?_cons_succ] at hi ⊢
          rw [hrt i hi, List.take_succ_cons, List.count_cons_of_ne (by decide)]
      · intro i hi
        match i with
        | 0 => simp
        | i + 1 =>
          simp only [List.get?_cons_succ] at hi ⊢
          exact hrf i hi

/-! ### Claim C1 -/

theorem coerceXcorr_id {c : Calib} {amp : String} {xc : List Mat} {nObs : ℕ}
    (hl : alookup amp c.rawXcorrs = some xc) (hlen : xc.length = nObs) :
    c.coerceXcorr nObs amp = .ok c := by
  have h1 : lookupE c.rawXcorrs amp = .ok xc := lookupE_eq_ok.mpr hl
  simp only [Calib.coerceXcorr, h1, ok_bind]
  rw [if_neg (by simp [shape3, hlen])]
  rfl

/-- C1: for a populated AMP-level calibration with consistent observation
counts (every observation-indexed sequence, `rawXcorrs` included, of the
common length `nObs`), shape-consistent kernel arrays and the derived
`badAmps`, the mapping round trip is the identity: `toDict` succeeds
without mutating the calibration and `fromDict` of the produced mapping
reconstructs every field value-for-value, for any choice of shape. -/
theorem C1_mapping_round_trip (x : Calib) (nObs side : ℕ)
    (hlev : x.level = "AMP")
    (hne : x.rawMeans ≠ [])
    (hnd : (x.rawMeans.map Prod.fst).Nodup)
    (hkX : x.rawXcorrs.map Prod.fst = x.rawMeans.map Prod.fst)
    (hkM : x.meanXcorrs.map Prod.fst = x.rawMeans.map Prod.fst)
    (hobs : ∀ p ∈ x.rawMeans, p.2.length = nObs)
    (hside : side * side = (x.shape.1 - 1) * (x.shape.2 - 1) / 4)
    (hxc : ∀ p ∈ x.rawXcorrs, IsStack nObs side side p.2)
    (hmx : ∀ p ∈ x.meanXcorrs, IsMat x.shape.1 x.shape.2 p.2)
    (hak : ∀ p ∈ x.ampKernels, IsMat x.shape.1 x.shape.2 p.2)
    (hdk : ∀ p ∈ x.detKernels, IsMat x.shape.1 x.shape.2 p.2)
    (hbad : x.badAmps = (x.valid.filter (fun p => !p.2)).map Prod.fst) :
    toDict x = .ok (exportDict x, x) ∧ fromDict (exportDict x) = .ok x := by
  have hndX : (x.rawXcorrs.map Prod.fst).Nodup := by rw [hkX]; exact hnd
  have hlens : x.getLengths =
      .ok (x.shape.1 * x.shape.2, (x.shape.1 - 1) * (x.shape.2 - 1) / 4, nObs) := by
    unfold Calib.getLengths
    rw [hlev]
    exact lengthsOf_amp_ok hne hobs
  have hfold : exFold (fun acc amp => acc.coerceXcorr nObs amp) x
      (x.rawXcorrs.map Prod.fst) = .ok x := by
    refine exFold_const (fun a ha => ?_)
    obtain ⟨p, hp, rfl⟩ := List.mem_map.mp ha
    exact coerceXcorr_id (alookup_of_mem_nodup hndX hp) (hxc p hp).1
  have houtX : exMap (fun p => do
      let flat ← optE (ravel3To (nObs * ((x.shape.1 - 1) * (x.shape.2 - 1) / 4)) p.2)
        BFKError.reshapeError
      pure (p.1, flat)) x.rawXcorrs
      = .ok (x.rawXcorrs.map (fun p => (p.1, p.2.flatten.flatten))) := by
    refine exMap_ok_of (fun p hp => ?_)
    rw [show ravel3To (nObs * ((x.shape.1 - 1) * (x.shape.2 - 1) / 4)) p.2
        = some p.2.flatten.flatten by rw [← hside]; exact ravel3To_of_isStack (hxc p hp)]
    rfl
  have houtM : exMap (fun p => do
      let flat ← optE (ravelTo (x.shape.1 * x.shape.2) p.2) BFKError.reshapeError
      pure (p.1, flat)) x.meanXcorrs
      = .ok (x.meanXcorrs.map (fun p => (p.1, p.2.flatten))) := by
    refine exMap_ok_of (fun p hp => ?_)
    rw [ravelTo_of_isMat (hmx p hp)]
    rfl
  have houtA : exMap (fun p => do
      let flat ← optE (ravelTo (x.shape.1 * x.shape.2) p.2) BFKError.reshapeError
      pure (p.1, flat)) x.ampKernels
      = .ok (x.ampKernels.map (fun p => (p.1, p.2.flatten))) := by
    refine exMap_ok_of (fun p hp => ?_)
    rw [ravelTo_of_isMat (hak p hp)]
    rfl
  have houtD : exMap (fun p => do
      let flat ← optE (ravelTo (x.shape.1 * x.shape.2) p.2) BFKError.reshapeError
      pure (p.1, flat)) x.detKernels
      = .ok (x.detKernels.map (fun p => (p.1, p.2.flatten))) := by
    refine exMap_ok_of (fun p hp => ?_)
    rw [ravelTo_of_isMat (hdk p hp)]
    rfl
  have htd : toDict x = .ok (exportDict x, x) := by
    simp only [toDict, hlens, ok_bind, hfold, houtX, houtM, houtA, houtD]
    rfl
  refine ⟨htd, ?_⟩
  have hv1 : ¬(currentVersion = (1 : ℚ)) := by decide
  have hsqrt : Nat.sqrt ((x.shape.1 - 1) * (x.shape.2 - 1) / 4) = side := by
    rw [← hside, Nat.sqrt_eq]
  have hlens2 : lengthsOf x.level (x.shape.1, x.shape.2) x.rawMeans =
      .ok (x.shape.1 * x.shape.2, (x.shape.1 - 1) * (x.shape.2 - 1) / 4, nObs) := by
    rw [hlev]
    exact lengthsOf_amp_ok hne hobs
  have hrx : exMap (fun p => do
      let m ← optE (reshape3 nObs side side p.2) BFKError.reshapeError
      pure (p.1, m)) (x.rawXcorrs.map (fun p => (p.1, p.2.flatten.flatten)))
      = .ok x.rawXcorrs := by
    have h := exMap_map_ok x.rawXcorrs (fun m => m.flatten.flatten)
      (fun q => do
        let m ← optE (reshape3 nObs side side q.2) BFKError.reshapeError
        pure (q.1, m))
      (fun p => p)
      (fun p hp => by
        show (do
            let m ← optE (reshape3 nObs side side p.2.flatten.flatten) BFKError.reshapeError
            pure (p.1, m)) = Except.ok p
        rw [reshape3_flatten (hxc p hp)]
        rfl)
    simpa using h
  have hndM : ((x.meanXcorrs.map (fun p => (p.1, p.2.flatten))).map Prod.fst).Nodup := by
    rw [map_fst_pairs, hkM]; exact hnd
  have hkeys : ((x.rawXcorrs.map (fun p => (p.1, p.2.flatten.flatten))).map Prod.fst)
      = ((x.meanXcorrs.map (fun p => (p.1, p.2.flatten))).map Prod.fst) := by
    rw [map_fst_pairs (f := fun m : List Mat => m.flatten.flatten),
      map_fst_pairs (f := fun m : Mat => m.flatten), hkX, hkM]
  have hmxsome : ∀ p ∈ x.meanXcorrs.map (fun p => (p.1, p.2.flatten)),
      (reshape2 x.shape.1 x.shape.2 p.2).isSome := by
    intro p hp
    obtain ⟨q, hq, rfl⟩ := List.mem_map.mp hp
    rw [reshape2_flatten (hmx q hq)]
    rfl
  have hmx2 := exMap_lookup_ok (e := BFKError.reshapeError)
      (x.rawXcorrs.map (fun p => (p.1, p.2.flatten.flatten)))
      (x.meanXcorrs.map (fun p => (p.1, p.2.flatten)))
      (reshape2 x.shape.1 x.shape.2) [] hkeys hndM hmxsome
  have hmx3 : (x.meanXcorrs.map (fun p => (p.1, p.2.flatten))).map
      (fun p => (p.1, (reshape2 x.shape.1 x.shape.2 p.2).getD [])) = x.meanXcorrs := by
    rw [List.map_map]
    have hpt : ∀ p ∈ x.meanXcorrs,
        ((fun p => (p.1, (reshape2 x.shape.1 x.shape.2 p.2).getD ([] : Mat))) ∘
          (fun p => (p.1, p.2.flatten))) p = id p := by
      intro p hp
      show (p.1, (reshape2 x.shape.1 x.shape.2 p.2.flatten).getD []) = p
      rw [reshape2_flatten (hmx p hp)]
      exact Prod.mk.eta
    rw [List.map_congr_left hpt, List.map_id]
  rw [hmx3] at hmx2
  have hakr : exMap (fun p => do
      let m ← optE (reshape2 x.shape.1 x.shape.2 p.2) BFKError.reshapeError
      pure (p.1, m)) (x.ampKernels.map (fun p => (p.1, p.2.flatten)))
      = .ok x.ampKernels := by
    have h := exMap_map_ok x.ampKernels (fun m : Mat => m.flatten)
      (fun q => do
        let m ← optE (reshape2 x.shape.1 x.shape.2 q.2) BFKError.reshapeError
        pure (q.1, m))
      (fun p => p)
      (fun p hp => by
        show (do
            let m ← optE (reshape2 x.shape.1 x.shape.2 p.2.flatten) BFKError.reshapeError
            pure (p.1, m)) = Except.ok p
        rw [reshape2_flatten (hak p hp)]
        rfl)
    simpa using h
  have hdkr : exMap (fun p => do
      let m ← optE (reshape2 x.shape.1 x.shape.2 p.2) BFKError.reshapeError
      pure (p.1, m)) (x.detKernels.map (fun p => (p.1, p.2.flatten)))
      = .ok x.detKernels := by
    have h := exMap_map_ok x.detKernels (fun m : Mat => m.flatten)
      (fun q => do
        let m ← optE (reshape2 x.shape.1 x.shape.2 q.2) BFKError.reshapeError
        pure (q.1, m))
      (fun p => p)
      (fun p hp => by
        show (do
            let m ← optE (reshape2 x.shape.1 x.shape.2 p.2.flatten) BFKError.reshapeError
            pure (p.1, m)) = Except.ok p
        rw [reshape2_flatten (hdk p hp)]
        rfl)
    simpa using h
  have hvalid : (x.valid.map (fun p => (p.1, PyVal.pyBool p.2))).map
      (fun p => (p.1, p.2.toBool)) = x.valid := by
    rw [List.map_map]
    have hpt : ∀ p ∈ x.valid, ((fun p : String × PyVal => (p.1, p.2.toBool)) ∘
        (fun p : String × Bool => (p.1, PyVal.pyBool p.2))) p = id p :=
      fun p _ => Prod.mk.eta
    rw [List.map_congr_left hpt, List.map_id]
  have hbad2 : ((x.valid.map (fun p => (p.1, PyVal.pyBool p.2))).filter
      (fun p => p.2.isFalseObj)).map Prod.fst = x.badAmps := by
    rw [hbad, List.filter_map, List.map_map]
    rw [List.filter_congr (fun p _ => (rfl :
      ((fun q : String × PyVal => q.2.isFalseObj) ∘
        (fun q : String × Bool => (q.1, PyVal.pyBool q.2))) p = (!p.2)))]
    exact List.map_congr_left (fun p _ => rfl)
  show fromDict (exportDict x) = .ok x
  simp only [fromDict, exportDict, Calib.exportMetadata, Option.getD_some, optE_some, ok_bind]
  rw [if_neg (by simp), if_neg hv1, if_pos trivial]
  simp only [pure_bind, ok_bind, hlens2, hsqrt, hrx, hmx2, hakr, hdkr, hvalid, hbad2]
  rfl


/-- Witness for C1: the round trip at a concrete populated one-amplifier
calibration with shape (3,3) and two observation pairs. -/
theorem C1_mapping_round_trip_witness :
    (sampleAmp.level = "AMP" ∧ sampleAmp.rawMeans ≠ [] ∧
      (sampleAmp.rawMeans.map Prod.fst).Nodup ∧
      (∀ p ∈ sampleAmp.rawMeans, p.2.length = 2) ∧
      1 * 1 = (sampleAmp.shape.1 - 1) * (sampleAmp.shape.2 - 1) / 4 ∧
      (∀ p ∈ sampleAmp.rawXcorrs, IsStack 2 1 1 p.2) ∧
      sampleAmp.badAmps = (sampleAmp.valid.filter (fun p => !p.2)).map Prod.fst) ∧
    (toDict sampleAmp = .ok (exportDict sampleAmp, sampleAmp) ∧
      fromDict (exportDict sampleAmp) = .ok sampleAmp) :=
  ⟨⟨rfl, by decide, by decide, by decide, by decide, by decide, by decide⟩,
    C1_mapping_round_trip sampleAmp 2 1 rfl (by decide) (by decide) (by decide) (by decide)
      (by decide) (by decide) (by decide) (by decide) (by decide) (by decide) (by decide)⟩


/-! ### Claim C2 -/

/-- C2: when the compacted `rawXcorrs[amp]` has exactly as many entries as
`expIdMask[amp]` has `True` values, `repackCorrelations(amp, shape)`
succeeds and replaces `rawXcorrs[amp]` by a sequence of the mask's full
length in which each `True` position holds the next unconsumed compacted
array in order and each `False` position holds a
`(shape[1], shape[2])` array filled with the not-a-number sentinel. -/
theorem C2_repack_correlations (c : Calib) (amp : String) (mask : List Bool)
    (xs : List Mat) (cs : ℕ × ℕ × ℕ)
    (hm : alookup amp c.expIdMask = some mask)
    (hx : alookup amp c.rawXcorrs = some xs)
    (hlen : xs.length = mask.count true) :
    ∃ r, c.repackCorrelations amp cs = .ok { c with rawXcorrs := aset amp r c.rawXcorrs } ∧
      r.length = mask.length ∧
      (∀ i, mask.get? i = some true → r.get? i = xs.get? ((mask.take i).count true)) ∧
      (∀ i, mask.get? i = some false →
        r.get? i = some (List.replicate cs.2.1 (List.replicate cs.2.2 Flt.nan))) := by
  obtain ⟨r, hr, hrl, hrt, hrf⟩ :=
    repackList_spec (List.replicate cs.2.1 (List.replicate cs.2.2 Flt.nan)) hlen
  refine ⟨r, ?_, hrl, hrt, hrf⟩
  unfold Calib.repackCorrelations
  rw [lookupE_eq_ok.mpr hm, ok_bind, lookupE_eq_ok.mpr hx, ok_bind, hr]

/-- Witness for C2, on the spec's own example: mask
`[true, false, true, false, true]` with three compacted 1×1 arrays. -/
theorem C2_repack_correlations_witness :
    (alookup "A" compactFiveSample.expIdMask = some [true, false, true, false, true] ∧
      alookup "A" compactFiveSample.rawXcorrs =
        some [[[Flt.val 1]], [[Flt.val 2]], [[Flt.val 3]]] ∧
      ([[[Flt.val 1]], [[Flt.val 2]], [[Flt.val 3]]] : List Mat).length =
        ([true, false, true, false, true] : List Bool).count true) ∧
    (∃ r, compactFiveSample.repackCorrelations "A" (3, 1, 1) =
        .ok { compactFiveSample with rawXcorrs := aset "A" r compactFiveSample.rawXcorrs } ∧
      r.length = ([true, false, true, false, true] : List Bool).length ∧
      (∀ i, ([true, false, true, false, true] : List Bool).get? i = some true →
        r.get? i = ([[[Flt.val 1]], [[Flt.val 2]], [[Flt.val 3]]] : List Mat).get?
          ((([true, false, true, false, true] : List Bool).take i).count true)) ∧
      (∀ i, ([true, false, true, false, true] : List Bool).get? i = some false →
        r.get? i = some (List.replicate 1 (List.replicate 1 Flt.nan)))) :=
  ⟨⟨by decide, by decide, by decide⟩,
    C2_repack_correlations compactFiveSample "A" [true, false, true, false, true]
      [[[Flt.val 1]], [[Flt.val 2]], [[Flt.val 3]]] (3, 1, 1)
      (by decide) (by decide) (by decide)⟩

/-! ### Claim C3 -/

/-- C3: `getLengths` returns
`(shape[0]*shape[1], ⌊(shape[0]-1)(shape[1]-1)/4⌋, nObs)` where at AMP
level `nObs` is the common length of the `rawMeans` sequences (an
inconsistency error when two amplifiers disagree), and `nObs = 0` at
DETECTOR level. -/
theorem C3_getLengths_spec (c : Calib) :
    (∀ n, c.level = "AMP" → c.rawMeans ≠ [] → (∀ p ∈ c.rawMeans, p.2.length = n) →
      c.getLengths = .ok (c.shape.1 * c.shape.2, (c.shape.1 - 1) * (c.shape.2 - 1) / 4, n)) ∧
    (∀ p q, c.level = "AMP" → p ∈ c.rawMeans → q ∈ c.rawMeans →
      p.2.length ≠ q.2.length → c.getLengths = .error .inconsistentObservations) ∧
    (c.level = "DETECTOR" →
      c.getLengths = .ok (c.shape.1 * c.shape.2, (c.shape.1 - 1) * (c.shape.2 - 1) / 4, 0)) := by
  refine ⟨?_, ?_, ?_⟩
  · intro n hlev hne h
    unfold Calib.getLengths
    rw [hlev]
    exact lengthsOf_amp_ok hne h
  · intro p q hlev hp hq hpq
    unfold Calib.getLengths
    rw [hlev]
    exact lengthsOf_inconsistent hp hq hpq
  · intro hlev
    unfold Calib.getLengths
    rw [hlev]
    exact lengthsOf_not_amp (by decide)

/-- Witness for C3: the consistent AMP case, the 10-vs-12 inconsistent
case, and the DETECTOR case, each at a concrete calibration. -/
theorem C3_getLengths_spec_witness :
    (sampleAmp.level = "AMP" ∧ sampleAmp.rawMeans ≠ [] ∧
        (∀ p ∈ sampleAmp.rawMeans, p.2.length = 2) ∧
        sampleAmp.getLengths = .ok (9, 1, 2)) ∧
    (inconsistentSample.level = "AMP" ∧
        ("A", List.replicate 10 (Flt.val 0)) ∈ inconsistentSample.rawMeans ∧
        ("B", List.replicate 12 (Flt.val 0)) ∈ inconsistentSample.rawMeans ∧
        inconsistentSample.getLengths = .error .inconsistentObservations) ∧
    (detSample.level = "DETECTOR" ∧ detSample.getLengths = .ok (9, 1, 0)) :=
  ⟨⟨rfl, by decide, by decide,
      (C3_getLengths_spec sampleAmp).1 2 rfl (by decide) (by decide)⟩,
    ⟨rfl, by decide, by decide,
      (C3_getLengths_spec inconsistentSample).2.1
        ("A", List.replicate 10 (Flt.val 0)) ("B", List.replicate 12 (Flt.val 0))
        rfl (by decide) (by decide) (by decide)⟩,
    ⟨rfl, (C3_getLengths_spec detSample).2.2 rfl⟩⟩

/-! ### Claim C5 -/

/-- C5: a persisted mapping (or amplifier table) whose schema version tag
is neither 1.0 nor 1.1 makes `fromDict` (respectively `fromTable`) fail
with the unsupported-version error, constructing no calibration. -/
theorem C5_unknown_version :
    (∀ d : BFKDict, d.metadata.obstype = "bfk" →
      d.metadata.bfkVersion ≠ 1 → d.metadata.bfkVersion ≠ currentVersion →
      fromDict d = .error .unknownVersion) ∧
    (∀ (t : AmpTable) (dt : Option DetTable),
      t.meta.bfkVersion ≠ 1 → t.meta.bfkVersion ≠ currentVersion →
      fromTable t dt = .error .unknownVersion) := by
  constructor
  · intro d hob h1 h2
    simp only [fromDict, hob, ne_eq]
    rw [if_neg (by simp), if_neg h1, if_neg h2]
    rfl
  · intro t dt h1 h2
    simp only [fromTable, fromTableDict]
    rw [if_neg h1, if_neg h2]
    rfl

/-- Witness for C5: a mapping and a table both tagged version 2.0. -/
theorem C5_unknown_version_witness :
    (badVersionDict.metadata.obstype = "bfk" ∧ badVersionDict.metadata.bfkVersion ≠ 1 ∧
      badVersionDict.metadata.bfkVersion ≠ currentVersion ∧
      fromDict badVersionDict = .error .unknownVersion) ∧
    (badVersionTable.meta.bfkVersion ≠ 1 ∧ badVersionTable.meta.bfkVersion ≠ currentVersion ∧
      fromTable badVersionTable none = .error .unknownVersion) :=
  ⟨⟨rfl, by decide, by decide,
      C5_unknown_version.1 badVersionDict rfl (by decide) (by decide)⟩,
    ⟨by decide, by decide,
      C5_unknown_version.2 badVersionTable none (by decide) (by decide)⟩⟩

/-! ### Inversion of the importers -/

theorem fromDict_ok_fields {d : BFKDict} {c : Calib} (h : fromDict d = .ok c) :
    c.valid = d.valid.map (fun p => (p.1, p.2.toBool)) ∧
    c.badAmps = (d.valid.filter (fun p => p.2.isFalseObj)).map Prod.fst ∧
    (d.metadata.bfkVersion = 1 → ∃ ms vs, d.means = some ms ∧ d.variances = some vs ∧
      c.expIdMask = ms.map (fun p => (p.1, List.replicate p.2.length true)) ∧
      c.rawMeans = ms ∧ c.rawVariances = vs) := by
  simp only [fromDict] at h
  split at h
  · cases h
  · split at h
    · -- version 1.0 branch
      rename_i hv1
      obtain ⟨ms, hms, h⟩ := bind_ok_inv h
      obtain ⟨vs, hvs, h⟩ := bind_ok_inv h
      obtain ⟨y, hy, h⟩ := bind_ok_inv h
      obtain rfl := Except.ok.inj hy
      obtain ⟨lens, hlens, h⟩ := bind_ok_inv h
      obtain ⟨rx, hrx, h⟩ := bind_ok_inv h
      obtain ⟨mx, hmx, h⟩ := bind_ok_inv h
      obtain ⟨ak, hak, h⟩ := bind_ok_inv h
      obtain ⟨dk, hdk, h⟩ := bind_ok_inv h
      obtain rfl := Except.ok.inj h
      rw [optE_eq_ok] at hms hvs
      exact ⟨rfl, rfl, fun _ => ⟨ms, vs, hms, hvs, rfl, rfl, rfl⟩⟩
    · split at h
      · -- version 1.1 branch
        rename_i hv1 hv11
        obtain ⟨mk, hmk, h⟩ := bind_ok_inv h
        obtain ⟨ms, hms, h⟩ := bind_ok_inv h
        obtain ⟨vs, hvs, h⟩ := bind_ok_inv h
        obtain ⟨y, hy, h⟩ := bind_ok_inv h
        obtain rfl := Except.ok.inj hy
        obtain ⟨lens, hlens, h⟩ := bind_ok_inv h
        obtain ⟨rx, hrx, h⟩ := bind_ok_inv h
        obtain ⟨mx, hmx, h⟩ := bind_ok_inv h
        obtain ⟨ak, hak, h⟩ := bind_ok_inv h
        obtain ⟨dk, hdk, h⟩ := bind_ok_inv h
        obtain rfl := Except.ok.inj h
        exact ⟨rfl, rfl, fun hv => absurd hv hv1⟩
      · cases h

theorem fromTableDict_ok_fields {t : AmpTable} {dt : Option DetTable} {d : BFKDict}
    (h : fromTableDict t dt = .ok d) :
    d.valid = (t.amplifier.zip t.validCol).map (fun p => (p.1, PyVal.pyBool p.2.toBool)) ∧
    d.badAmps = ((t.amplifier.zip t.validCol).filter
      (fun p => !p.2.toBool)).map Prod.fst := by
  simp only [fromTableDict] at h
  have hgoal2 : (((t.amplifier.zip t.validCol).map
      (fun p => (p.1, PyVal.pyBool p.2.toBool))).filter
        (fun p => p.2.isFalseObj)).map Prod.fst =
      ((t.amplifier.zip t.validCol).filter (fun p => !p.2.toBool)).map Prod.fst := by
    rw [List.filter_map, List.map_map]
    rfl
  split at h
  · obtain ⟨rml, hrml, h⟩ := bind_ok_inv h
    obtain ⟨rvl, hrvl, h⟩ := bind_ok_inv h
    obtain ⟨y, hy, h⟩ := bind_ok_inv h
    obtain rfl := Except.ok.inj hy
    obtain rfl := Except.ok.inj h
    exact ⟨rfl, hgoal2⟩
  · split at h
    · obtain ⟨mkl, hmkl, h⟩ := bind_ok_inv h
      obtain ⟨rml, hrml, h⟩ := bind_ok_inv h
      obtain ⟨rvl, hrvl, h⟩ := bind_ok_inv h
      obtain ⟨y, hy, h⟩ := bind_ok_inv h
      obtain rfl := Except.ok.inj hy
      obtain rfl := Except.ok.inj h
      exact ⟨rfl, hgoal2⟩
    · cases h

/-! ### Claim C4 -/

/-- C4: a mapping tagged with schema version 1.0 that supplies `means` and
`variances` yields, through `fromDict`, an `expIdMask` synthesized as
all-true sequences of the matching lengths and `rawMeans`/`rawVariances`
equal to the supplied `means`/`variances` unchanged. -/
theorem C4_legacy_migration (d : BFKDict) (c : Calib) (ms vs : List (String × List Flt))
    (hv : d.metadata.bfkVersion = 1) (hms : d.means = some ms) (hvs : d.variances = some vs)
    (hok : fromDict d = .ok c) :
    c.expIdMask = ms.map (fun p => (p.1, List.replicate p.2.length true)) ∧
    c.rawMeans = ms ∧ c.rawVariances = vs := by
  obtain ⟨-, -, h1⟩ := fromDict_ok_fields hok
  obtain ⟨ms2, vs2, hms2, hvs2, hmask, hmean, hvar⟩ := h1 hv
  obtain rfl : ms2 = ms := by rw [hms] at hms2; exact (Option.some.inj hms2).symm
  obtain rfl : vs2 = vs := by rw [hvs] at hvs2; exact (Option.some.inj hvs2).symm
  exact ⟨hmask, hmean, hvar⟩

/-- Witness for C4, on the spec's migration example
`means = {A: [1.0, 2.0]}`, `variances = {A: [0.1, 0.2]}`. -/
theorem C4_legacy_migration_witness :
    (legacyDict.metadata.bfkVersion = 1 ∧
      legacyDict.means = some [("A", [Flt.val 1, Flt.val 2])] ∧
      legacyDict.variances = some [("A", [Flt.val (1 / 10), Flt.val (2 / 10)])] ∧
      fromDict legacyDict = .ok legacyCalib) ∧
    (legacyCalib.expIdMask = [("A", [Flt.val 1, Flt.val 2])].map
        (fun p => (p.1, List.replicate p.2.length true)) ∧
      legacyCalib.rawMeans = [("A", [Flt.val 1, Flt.val 2])] ∧
      legacyCalib.rawVariances = [("A", [Flt.val (1 / 10), Flt.val (2 / 10)])]) :=
  ⟨⟨rfl, rfl, rfl, rfl⟩,
    C4_legacy_migration legacyDict legacyCalib
      [("A", [Flt.val 1, Flt.val 2])] [("A", [Flt.val (1 / 10), Flt.val (2 / 10)])]
      rfl rfl rfl rfl⟩

/-! ### Claim C7 -/

/-- C7 (code bug recorded by the spec's design notes): export is *not*
read-only.  On a calibration whose `rawXcorrs` is compacted, `toDict`
mutates the live calibration, replacing `rawXcorrs` by its repacked form:
the state returned alongside the mapping differs from the input in
`rawXcorrs`.  The same repack-in-place runs inside `toTable`. -/
theorem C7_export_mutates :
    (toDict compactSample = .ok (compactDict, compactMutated) ∧
      compactMutated.rawXcorrs ≠ compactSample.rawXcorrs) ∧
    (∀ r, toTable compactSample = .ok (r, compactMutated) →
      compactMutated.rawXcorrs ≠ compactSample.rawXcorrs) :=
  ⟨⟨rfl, by decide⟩, fun _ _ => by decide⟩

/-! ### Claim C9 -/

/-- C9: after `fromDict`, `badAmps` holds exactly the amplifiers whose
persisted validity value is the Python boolean `False` object itself (an
identity test), while `valid` is populated by truthiness coercion; in the
dictionary `fromTable` builds, the validity values are coerced to genuine
booleans before that test.  Consequently a falsy non-boolean persisted
value (the integer 0) gives `valid[amp] = false` with `amp ∉ badAmps`,
violating the badAmps-valid invariant on import. -/
theorem C9_badAmps_identity_test :
    (∀ (d : BFKDict) (c : Calib), fromDict d = .ok c →
      c.valid = d.valid.map (fun p => (p.1, p.2.toBool)) ∧
      c.badAmps = (d.valid.filter (fun p => p.2.isFalseObj)).map Prod.fst) ∧
    (∀ (t : AmpTable) (dt : Option DetTable) (d : BFKDict), fromTableDict t dt = .ok d →
      d.valid = (t.amplifier.zip t.validCol).map (fun p => (p.1, PyVal.pyBool p.2.toBool)) ∧
      d.badAmps = ((t.amplifier.zip t.validCol).filter
        (fun p => !p.2.toBool)).map Prod.fst) ∧
    (fromDict pyIntValidDict = .ok pyIntValidCalib ∧
      PyVal.toBool (.pyInt 0) = false ∧ PyVal.isFalseObj (.pyInt 0) = false ∧
      alookup "A" pyIntValidCalib.valid = some false ∧
      pyIntValidCalib.badAmps = []) := by
  refine ⟨?_, ?_, rfl, rfl, rfl, rfl, rfl⟩
  · intro d c h
    obtain ⟨h1, h2, -⟩ := fromDict_ok_fields h
    exact ⟨h1, h2⟩
  · intro t dt d h
    exact fromTableDict_ok_fields h

/-- Witness for C9: the identity-test characterizations applied to the
falsy-integer mapping and to a legacy table with an integer-0 VALID
column. -/
theorem C9_badAmps_identity_test_witness :
    (fromDict pyIntValidDict = .ok pyIntValidCalib ∧
      pyIntValidCalib.valid =
        pyIntValidDict.valid.map (fun p => (p.1, p.2.toBool)) ∧
      pyIntValidCalib.badAmps =
        (pyIntValidDict.valid.filter (fun p => p.2.isFalseObj)).map Prod.fst) ∧
    (fromTableDict intValidTable none = .ok intValidDict ∧
      intValidDict.valid = (intValidTable.amplifier.zip intValidTable.validCol).map
        (fun p => (p.1, PyVal.pyBool p.2.toBool)) ∧
      intValidDict.badAmps = ((intValidTable.amplifier.zip intValidTable.validCol).filter
        (fun p => !p.2.toBool)).map Prod.fst) :=
  ⟨⟨rfl, (C9_badAmps_identity_test.1 pyIntValidDict pyIntValidCalib rfl).1,
      (C9_badAmps_identity_test.1 pyIntValidDict pyIntValidCalib rfl).2⟩,
    ⟨rfl, (C9_badAmps_identity_test.2.1 intValidTable none intValidDict rfl).1,
      (C9_badAmps_identity_test.2.1 intValidTable none intValidDict rfl).2⟩⟩

/-! ### Claim C6 -/

theorem buildAmpRows_valids {nObs sL kL : ℕ} :
    ∀ (c : Calib) (keys : List String) (st : AmpRows × Calib),
      buildAmpRows nObs sL kL c keys = .ok st →
      st.1.valids = keys.map (fun amp =>
        PyVal.pyInt (if ((alookup amp c.valid).getD false) && !(c.badAmps.contains amp)
          then 1 else 0)) := by
  intro c keys
  induction keys generalizing c with
  | nil =>
    intro st h
    obtain rfl := Except.ok.inj h
    rfl
  | cons amp rest ih =>
    intro st h
    simp only [buildAmpRows] at h
    obtain ⟨mask, h1, h⟩ := bind_ok_inv h
    obtain ⟨mean, h2, h⟩ := bind_ok_inv h
    obtain ⟨var, h3, h⟩ := bind_ok_inv h
    obtain ⟨c2, hc2, h⟩ := bind_ok_inv h
    obtain ⟨xc, h4, h⟩ := bind_ok_inv h
    obtain ⟨flatX, h5, h⟩ := bind_ok_inv h
    obtain ⟨g, h6, h⟩ := bind_ok_inv h
    obtain ⟨nz, h7, h⟩ := bind_ok_inv h
    obtain ⟨mxv, h8, h⟩ := bind_ok_inv h
    obtain ⟨flatM, h9, h⟩ := bind_ok_inv h
    obtain ⟨akv, h10, h⟩ := bind_ok_inv h
    obtain ⟨flatK, h11, h⟩ := bind_ok_inv h
    obtain ⟨v, hv, h⟩ := bind_ok_inv h
    obtain ⟨st2, hst2, h⟩ := bind_ok_inv h
    obtain rfl := Except.ok.inj h
    obtain ⟨-, -, -, -, -, hbad, -, -, -, -, hval, -⟩ := coerce_preserves hc2
    have hlook : alookup amp c.valid = some v := by
      rw [← hval]; exact lookupE_eq_ok.mp hv
    show PyVal.pyInt (if v && !(c2.badAmps.contains amp) then 1 else 0) :: st2.1.valids = _
    rw [ih c2 st2 hst2, hval, hbad, List.map_cons, hlook]
    rfl

/-- C6: for an AMP-level calibration, the integer VALID column written by
`toTable` holds, for each amplifier in `rawMeans` order, 1 exactly when
`valid[amp]` is true and `amp` is not listed in `badAmps`, and 0
otherwise — the two validity signals are combined, not treated as
redundant. -/
theorem C6_valid_column (c : Calib) (t : AmpTable) (dt : Option DetTable) (c2 : Calib)
    (hlev : c.level = "AMP") (h : toTable c = .ok ((t, dt), c2)) :
    t.validCol = (c.rawMeans.map Prod.fst).map (fun amp =>
      PyVal.pyInt (if ((alookup amp c.valid).getD false) && !(c.badAmps.contains amp)
        then 1 else 0)) := by
  simp only [toTable] at h
  obtain ⟨lens, hlens, h⟩ := bind_ok_inv h
  rw [hlev, if_pos rfl] at h
  obtain ⟨st, hst, h⟩ := bind_ok_inv h
  have hgoal := buildAmpRows_valids c (c.rawMeans.map Prod.fst) st hst
  split at h
  · obtain ⟨dk, hdk, h⟩ := bind_ok_inv h
    obtain ⟨dT, hdT, h⟩ := bind_ok_inv h
    have heq := Except.ok.inj h
    simp only [Prod.mk.injEq] at heq
    obtain ⟨⟨ht, -⟩, -⟩ := heq
    rw [← ht]
    exact hgoal
  · obtain ⟨dT, hdT, h⟩ := bind_ok_inv h
    have heq := Except.ok.inj h
    simp only [Prod.mk.injEq] at heq
    obtain ⟨⟨ht, -⟩, -⟩ := heq
    rw [← ht]
    exact hgoal

/-- Witness for C6: amplifier "A" valid and good encodes 1; amplifier "B"
valid but listed bad encodes 0. -/
theorem C6_valid_column_witness :
    (twoAmpSample.level = "AMP" ∧
      toTable twoAmpSample = .ok ((twoAmpTable, none), twoAmpSample) ∧
      twoAmpTable.validCol = [.pyInt 1, .pyInt 0]) ∧
    twoAmpTable.validCol = (twoAmpSample.rawMeans.map Prod.fst).map (fun amp =>
      PyVal.pyInt (if ((alookup amp twoAmpSample.valid).getD false) &&
        !(twoAmpSample.badAmps.contains amp) then 1 else 0)) :=
  ⟨⟨rfl, rfl, rfl⟩, C6_valid_column twoAmpSample twoAmpTable none twoAmpSample rfl rfl⟩

/-! ### Claim C8: the sigma-clipped aggregation -/

theorem clipStep_outlier (a : ℚ) :
    clipStep [a, a, a, a, a + 1000] = [a, a, a, a, a + 1000] := by
  have hmean : qmean [a, a, a, a, a + 1000] = a + 200 := by
    simp only [qmean, List.sum_cons, List.sum_nil, List.length_cons, List.length_nil]
    push_cast
    ring
  have hvar : qmean ([a, a, a, a, a + 1000].map
      (fun x => (x - qmean [a, a, a, a, a + 1000]) ^ 2)) = 160000 := by
    rw [hmean]
    simp only [qmean, List.map_cons, List.map_nil, List.sum_cons, List.sum_nil,
      List.length_cons, List.length_nil]
    push_cast
    ring
  simp only [clipStep]
  refine List.filter_eq_self.mpr (fun x hx => ?_)
  rw [decide_eq_true_eq, hvar, hmean]
  simp only [List.mem_cons, List.not_mem_nil, or_false] at hx
  rcases hx with rfl | rfl | rfl | rfl | rfl
  · have h1 : (x - (x + 200)) ^ 2 = 40000 := by ring
    rw [h1]; norm_num
  · have h1 : (x - (x + 200)) ^ 2 = 40000 := by ring
    rw [h1]; norm_num
  · have h1 : (x - (x + 200)) ^ 2 = 40000 := by ring
    rw [h1]; norm_num
  · have h1 : (x - (x + 200)) ^ 2 = 40000 := by ring
    rw [h1]; norm_num
  · have h1 : (a + 1000 - (a + 200)) ^ 2 = 640000 := by ring
    rw [h1]; norm_num

theorem clipIter_fix {xs : List ℚ} (h : clipStep xs = xs) : ∀ n, clipIter n xs = xs
  | 0 => rfl
  | n + 1 => by
    simp only [clipIter]
    rw [h, if_pos rfl]

theorem sigmaClip_outlier (a : ℚ) : sigmaClipMean [a, a, a, a, a + 1000] = a + 200 := by
  unfold sigmaClipMean
  rw [clipIter_fix (clipStep_outlier a)]
  simp only [qmean, List.sum_cons, List.sum_nil, List.length_cons, List.length_nil]
  push_cast
  ring

theorem sigmaClipMeanFlt_outlier (x : ℚ) :
    sigmaClipMeanFlt [.val x, .val x, .val x, .val x, .val (x + 1000)] = .val (x + 200) := by
  have h : sigmaClipMeanFlt [.val x, .val x, .val x, .val x, .val (x + 1000)] =
      .val (sigmaClipMean [x, x, x, x, x + 1000]) := rfl
  rw [h, sigmaClip_outlier]

/-- The aggregation result on the five-kernel outlier scenario: every
stored entry is the *transposed* common entry plus 200 (= 1000/5), because
the lone outlier never exceeds the 5σ clip and the axis reversal of
`np.transpose` reads the amplifier kernels at the transposed coordinate. -/
theorem aggSample_mdk (a b c d e f g h i : ℚ) :
    (aggSample a b c d e f g h i).makeDetectorKernelFromAmpwiseKernels "DET" [] =
      .ok { aggSample a b c d e f g h i with
            detKernels := [("DET",
              m33 (a + 200) (d + 200) (g + 200) (b + 200) (e + 200) (h + 200)
                (c + 200) (f + 200) (i + 200))] } := by
  have e1 := sigmaClipMeanFlt_outlier a
  have e2 := sigmaClipMeanFlt_outlier b
  have e3 := sigmaClipMeanFlt_outlier c
  have e4 := sigmaClipMeanFlt_outlier d
  have e5 := sigmaClipMeanFlt_outlier e
  have e6 := sigmaClipMeanFlt_outlier f
  have e7 := sigmaClipMeanFlt_outlier g
  have e8 := sigmaClipMeanFlt_outlier h
  have e9 := sigmaClipMeanFlt_outlier i
  have hred : (aggSample a b c d e f g h i).makeDetectorKernelFromAmpwiseKernels "DET" [] =
      Except.ok { aggSample a b c d e f g h i with
        detKernels := [("DET",
          [[sigmaClipMeanFlt [.val a, .val a, .val a, .val a, .val (a + 1000)],
            sigmaClipMeanFlt [.val d, .val d, .val d, .val d, .val (d + 1000)],
            sigmaClipMeanFlt [.val g, .val g, .val g, .val g, .val (g + 1000)]],
           [sigmaClipMeanFlt [.val b, .val b, .val b, .val b, .val (b + 1000)],
            sigmaClipMeanFlt [.val e, .val e, .val e, .val e, .val (e + 1000)],
            sigmaClipMeanFlt [.val h, .val h, .val h, .val h, .val (h + 1000)]],
           [sigmaClipMeanFlt [.val c, .val c, .val c, .val c, .val (c + 1000)],
            sigmaClipMeanFlt [.val f, .val f, .val f, .val f, .val (f + 1000)],
            sigmaClipMeanFlt [.val i, .val i, .val i, .val i, .val (i + 1000)]]])] } := rfl
  rw [hred, e1, e2, e3, e4, e5, e6, e7, e8, e9]
  rfl

/-- C8 counterexample: with five 3×3 kernels identical (values 0..8,
asymmetric) except one amplifier offset by +1000 everywhere, the stored
detector kernel is *not* the common kernel: under the spec's description
of the 5σ clipped mean, the outlier (exactly 2 population standard
deviations from the mean) is never clipped, shifting every entry by
+200 = 1000/5, and the transpose in the aggregation swaps coordinates. -/
theorem C8_aggregation_counterexample :
    aggConcrete.makeDetectorKernelFromAmpwiseKernels "DET" [] =
      .ok { aggConcrete with detKernels := [("DET",
        m33 200 203 206 201 204 207 202 205 208)] } ∧
    m33 200 203 206 201 204 207 202 205 208 ≠ kern9 := by
  constructor
  · have h := aggSample_mdk 0 1 2 3 4 5 6 7 8
    have heq : aggConcrete = aggSample 0 1 2 3 4 5 6 7 8 := by
      norm_num [aggConcrete, aggSample, kern9, kern9off, m33, emptySample]
    rw [heq, h]
    norm_num [m33]
  · decide

/-- C8 (amended): for five 3×3 amplifier kernels with arbitrary common
rational entries except one amplifier offset by +1000 at every coordinate,
`makeDetectorKernelFromAmpwiseKernels` (with the sigma-clipped-mean
primitive modelled from the spec: clip at 5 standard deviations, iterated
to convergence) stores a detector kernel whose entry at `(i, j)` is the
common value at `(j, i)` plus 200: the lone outlier among five samples
lies exactly two population standard deviations from the mean, so the 5σ
clip excludes nothing, and the aggregation reads the amplifier kernels at
the transposed coordinate. -/
theorem C8_aggregation_amended (a b c d e f g h i : ℚ) :
    (aggSample a b c d e f g h i).makeDetectorKernelFromAmpwiseKernels "DET" [] =
      .ok { aggSample a b c d e f g h i with
            detKernels := [("DET",
              m33 (a + 200) (d + 200) (g + 200) (b + 200) (e + 200) (h + 200)
                (c + 200) (f + 200) (i + 200))] } :=
  aggSample_mdk a b c d e f g h i

/-! ### Claim C10 -/

/-- C10: at AMP level with an empty `rawMeans` mapping (no amplifiers),
`getLengths` raises the same inconsistency error as when amplifiers
disagree, and consequently `toDict` and `toTable` fail the same way. -/
theorem C10_empty_amp_calib (c : Calib) (hlev : c.level = "AMP")
    (hempty : c.rawMeans = []) :
    c.getLengths = .error .inconsistentObservations ∧
    toDict c = .error .inconsistentObservations ∧
    toTable c = .error .inconsistentObservations := by
  have hgl : c.getLengths = .error .inconsistentObservations := by
    unfold Calib.getLengths
    rw [hlev, hempty]
    exact lengthsOf_empty
  refine ⟨hgl, ?_, ?_⟩
  · simp only [toDict, hgl, error_bind]
  · simp only [toTable, hgl, error_bind]

/-- Witness for C10: the freshly constructed empty AMP-level calibration. -/
theorem C10_empty_amp_calib_witness :
    (emptySample.level = "AMP" ∧ emptySample.rawMeans = []) ∧
    (emptySample.getLengths = .error .inconsistentObservations ∧
      toDict emptySample = .error .inconsistentObservations ∧
      toTable emptySample = .error .inconsistentObservations) :=
  ⟨⟨rfl, rfl⟩, C10_empty_amp_calib emptySample rfl rfl⟩

end BFK
